import Mathlib

/-
Verification of the IOTA MetaMask Snap request pipeline.

Shallow embedding of `src/index.tsx` (the `onRpcRequest` dispatcher and its
per-method handlers) and of the helper module re-exported as `./util`
(the second half of `src/types.ts`: `assertAdminOrigin`,
`getFullnodeUrlForChain`, `getStoredState`, `updateState`,
`calcTotalGasFeesDec`, `buildTransactionBlock`), together with the
validation layer (`validate` and the mock schema validators in
`src/types.ts`).

External collaborators (the host wallet, the chain SDK, the network) are
modelled as an oracle (`Env`) supplying the outcome of each external call:
key derivation, `Transaction.from`, `transactionBlock.build`,
`dryRunTransactionBlock`, the dialog answer, signing outputs and the
execute call.  JavaScript runtime values that cross the RPC boundary are
modelled by a small JSON value type `Json` (with `undefined` standing for the
JavaScript undefined), so that the behaviour of the handlers on
non-conforming parameters is expressible.  Each run produces a result
(`Except SnapError RpcResult`), the persisted state after the call, and a
trace of observable events (state reads and writes, dialogs, signing,
broadcasting).
-/

namespace IotaSnap

/-- JavaScript/JSON runtime values as they appear in RPC parameters and in
the snap persisted state.  `undefined` models the JavaScript `undefined`
(absent property). -/
inductive Json where
  | undefined
  | null
  | bool (b : Bool)
  | num (n : Int)
  | str (s : String)
  | arr (elems : List Json)
  | obj (fields : List (String × Json))

/-- Strict equality of a JavaScript value with a string literal, as used by
the `switch` statements (`===` against a string constant): only a string
with the same contents compares equal. -/
def Json.strEq : Json → String → Bool
  | .str s, t => s = t
  | _, _ => false

/-- Property lookup in an object field list (first binding wins; the model
keeps one binding per key). -/
def lookupField : List (String × Json) → String → Json
  | [], _ => .undefined
  | (k, v) :: rest, key => if k = key then v else lookupField rest key

/-- JavaScript property access `value.key`: a missing property, or access on
a non-object, yields `undefined`. -/
def Json.getField : Json → String → Json
  | .obj fields, key => lookupField fields key
  | _, _ => .undefined

/-- JavaScript nullish test: `undefined` and `null` are the two nullish
values (the values skipped by the `??` operator). -/
def Json.isNullish : Json → Bool
  | .undefined => true
  | .null => true
  | _ => false

/-- Nullish coalescing `a ?? b`. -/
def Json.coalesce (a b : Json) : Json := if a.isNullish then b else a

mutual

/-- String coercion of a JavaScript value as performed by a template
literal, used only to format the `Unsupported chain: ...` error message. -/
def jsDisplay : Json → String
  | .undefined => "undefined"
  | .null => "null"
  | .bool b => if b then "true" else "false"
  | .num n => toString n
  | .str s => s
  | .arr elems => jsDisplayList elems
  | .obj _ => "[object Object]"

/-- Array coercion joins the elements with commas; `null` and `undefined`
elements become empty strings, as in `Array.prototype.join`. -/
def jsDisplayList : List Json → String
  | [] => ""
  | x :: rest =>
    let piece :=
      match x with
      | .undefined => ""
      | .null => ""
      | y => jsDisplay y
    match rest with
    | [] => piece
    | _ => piece ++ "," ++ jsDisplayList rest

end

/-- The snap persisted state (`SnapState` in `src/types.ts`): one optional
fullnode URL override per network.  Fields hold raw JSON values because
`admin_setFullnodeUrl` stores `params.url` unvalidated; a field that was
never set is `undefined`. -/
structure SnapState where
  mainnetUrl : Json
  testnetUrl : Json
  devnetUrl : Json
  localnetUrl : Json

/-- The empty state `{}` used when nothing has been persisted yet. -/
def emptySnapState : SnapState := ⟨.undefined, .undefined, .undefined, .undefined⟩

/-- `getStoredState`: `snap_manageState get` returns the stored object or
null; the code returns `(state as SnapState) ?? {}`. -/
def getStoredState (stored : Option SnapState) : SnapState :=
  stored.getD emptySnapState

/-- First admin origin accepted by `assertAdminOrigin`. -/
def adminOrigin1 : String := "https://iotasnap.com"

/-- Second admin origin accepted by `assertAdminOrigin`. -/
def adminOrigin2 : String := "http://localhost:8000"

/-- `assertAdminOrigin` condition: the two allowed admin origins. -/
def isAdminOrigin (origin : String) : Bool :=
  origin = adminOrigin1 || origin = adminOrigin2

/-- Message of the error thrown by `assertAdminOrigin`. -/
def unauthorizedMsg : String := "Unauthorized: Admin-only method"

/-- Chain identifier accepted for mainnet. -/
def chainMainnet : String := "iota:mainnet"

/-- Chain identifier accepted for testnet. -/
def chainTestnet : String := "iota:testnet"

/-- Chain identifier accepted for devnet. -/
def chainDevnet : String := "iota:devnet"

/-- Chain identifier accepted for localnet. -/
def chainLocalnet : String := "iota:localnet"

/-- Built-in default mainnet endpoint; stands for the chain SDK call
`getFullnodeUrl('mainnet')` (`DEFAULT_MAINNET_URL` in the util module). -/
def defaultMainnetUrl : Json := Json.str ("https://api.mainnet.iota.cafe")

/-- Built-in default testnet endpoint (`getFullnodeUrl('testnet')`). -/
def defaultTestnetUrl : Json := Json.str ("https://api.testnet.iota.cafe")

/-- Built-in default devnet endpoint (`getFullnodeUrl('devnet')`). -/
def defaultDevnetUrl : Json := Json.str ("https://api.devnet.iota.cafe")

/-- Built-in default localnet endpoint (`getFullnodeUrl('localnet')`). -/
def defaultLocalnetUrl : Json := Json.str ("http://127.0.0.1:9000")

/-- Prefix of the error message thrown for an unrecognised chain. -/
def unsupportedChainPrefix : String := "Unsupported chain: "

/-- `getFullnodeUrlForChain` from the util module: reads the persisted
state, returns the per-network override when set (`?? DEFAULT`), the
built-in default otherwise, and throws `Unsupported chain: <chain>` for
any other chain value. -/
def getFullnodeUrlForChain (stored : Option SnapState) (chain : Json) :
    Except String Json :=
  let state := getStoredState stored
  if chain.strEq chainMainnet then
    .ok (state.mainnetUrl.coalesce defaultMainnetUrl)
  else if chain.strEq chainTestnet then
    .ok (state.testnetUrl.coalesce defaultTestnetUrl)
  else if chain.strEq chainDevnet then
    .ok (state.devnetUrl.coalesce defaultDevnetUrl)
  else if chain.strEq chainLocalnet then
    .ok (state.localnetUrl.coalesce defaultLocalnetUrl)
  else
    .error (unsupportedChainPrefix ++ jsDisplay chain)

/-! Exact decimal strings.

`calcTotalGasFeesDec` and the balance-change amounts are computed with
decimal.js: exact construction from the integer amounts, exact plus and
minus (the operands here are 64-bit integers, well inside the default
precision of 20 significant digits), division by `1e9` (an exact shift of
the decimal point) and `Decimal.prototype.toString`.  `toString` prints
the value in plain decimal notation without trailing fraction zeros, and
switches to exponent notation when the decimal exponent is at most `-7`
(the default `toExpNeg`); for the magnitudes reachable here (below
`1e21`) the positive-exponent switch never fires.  The renderer below
reproduces that output format for an integer number of nano-units. -/

/-- The decimal digit character for `d` (valid for `d < 10`). -/
def digitChar (d : Nat) : Char := Char.ofNat (48 + d)

/-- Numeric value of a digit character. -/
def charToDigit (c : Char) : Nat := c.toNat - 48

/-- The character `.` (full stop). -/
def dotChar : Char := Char.ofNat 46

/-- The character `-` (minus sign). -/
def dashChar : Char := Char.ofNat 45

/-- The character `e` (exponent marker). -/
def expChar : Char := Char.ofNat 101

/-- Little-endian base-10 digits, by fuel-bounded recursion so that terms
reduce definitionally (`myDigits` below instantiates the fuel). -/
def digitsAux : Nat → Nat → List Nat
  | 0, _ => []
  | fuel + 1, n => if n = 0 then [] else n % 10 :: digitsAux fuel (n / 10)

/-- Little-endian base-10 digits of `n` (empty for 0). -/
def myDigits (n : Nat) : List Nat := digitsAux n n

/-- Most-significant-first base-10 digits of `n` (empty for 0). -/
def natMsdDigits (n : Nat) : List Nat := (myDigits n).reverse

/-- Digit characters of `n`, most significant first (`"0"` for 0). -/
def natChars (n : Nat) : List Char :=
  if n = 0 then [digitChar 0] else (natMsdDigits n).map digitChar

/-- Splits the powers of ten out of `n`: returns `(m, z)` with
`n = m * 10 ^ z` and, when `n ≠ 0` fits in the fuel, `10` does not divide
`m`.  Fuel-bounded so that terms reduce definitionally. -/
def splitTens : Nat → Nat → Nat × Nat
  | 0, n => (n, 0)
  | fuel + 1, n =>
    if n % 10 = 0 ∧ n ≠ 0 then
      let p := splitTens fuel (n / 10)
      (p.1, p.2 + 1)
    else (n, 0)

/-- Fraction digits printed for a nano-unit remainder `fp` (with
`0 < fp < 10 ^ 9`): the nine fraction places with the trailing zeros
removed. -/
def fracChars (fp : Nat) : List Char :=
  let p := splitTens 9 fp
  let core := (natMsdDigits p.1).map digitChar
  List.replicate (9 - p.2 - core.length) (digitChar 0) ++ core

/-- Exponent-notation rendering `d[.ddd]e-k` used by decimal.js for
magnitudes with decimal exponent at most `-7`, which for `n / 10 ^ 9`
means `0 < n < 1000`. -/
def expNotationChars (n : Nat) : List Char :=
  let p := splitTens 9 n
  let coeff :=
    match natMsdDigits p.1 with
    | [] => [digitChar 0]
    | [d] => [digitChar d]
    | d :: rest => digitChar d :: dotChar :: rest.map digitChar
  coeff ++ expChar :: dashChar :: natChars (10 - (myDigits n).length)

/-- Characters of the decimal.js rendering of `n / 10 ^ 9` for `n : Nat`. -/
def renderAbsChars (n : Nat) : List Char :=
  if n = 0 then [digitChar 0]
  else if n < 1000 then expNotationChars n
  else
    let ip := n / 1000000000
    let fp := n % 1000000000
    if fp = 0 then natChars ip
    else natChars ip ++ dotChar :: fracChars fp

/-- Characters of the decimal.js rendering of `t / 10 ^ 9` for `t : Int`. -/
def renderChars (t : Int) : List Char :=
  if t < 0 then dashChar :: renderAbsChars t.natAbs else renderAbsChars t.natAbs

/-- `new Decimal(t).div(1e9).toString()`: the decimal string of `t` nano
units. -/
def decString9 (t : Int) : String := String.mk (renderChars t)

/-! The dry-run response, as consumed by the code: the optional chains
`effects?.status?.status`, `effects?.status?.error`, `effects?.gasUsed`
and the optional `balanceChanges` array. -/

/-- `effects.status` of a dry-run response. -/
structure TxStatus where
  status : String
  error : Option String

/-- Gas usage of a dry-run response, in nano units.  The JSON carries the
three u64 amounts as decimal strings, parsed exactly by decimal.js. -/
structure GasUsed where
  computationCost : Nat
  storageCost : Nat
  storageRebate : Nat

/-- `effects` of a dry-run response (both inner fields read through
optional chaining by the code). -/
structure TxEffects where
  status : Option TxStatus
  gasUsed : Option GasUsed

/-- One entry of `dryRunRes.balanceChanges`.  The `amount` is a (possibly
negative) integer of nano units, carried as a decimal string in the JSON
and parsed exactly by decimal.js. -/
structure RawBalanceChange where
  owner : String
  coinType : String
  amount : Int
deriving DecidableEq

/-- The dry-run response fields the code reads. -/
structure DryRunResponse where
  effects : Option TxEffects
  balanceChanges : Option (List RawBalanceChange)

/-- The status string tested by the code. -/
def successStr : String := "success"

/-- `dryRunRes.effects?.status?.status === 'success'`. -/
def dryRunSuccess (res : DryRunResponse) : Bool :=
  match res.effects with
  | none => false
  | some eff =>
    match eff.status with
    | none => false
    | some st => st.status = successStr

/-- Fallback error message for a failed dry run. -/
def unknownErrorStr : String := "Unknown error"

/-- `dryRunRes.effects?.status?.error ?? 'Unknown error'`. -/
def dryRunErrorMsg (res : DryRunResponse) : String :=
  ((res.effects.bind TxEffects.status).bind TxStatus.error).getD unknownErrorStr

/-- `dryRunRes?.effects?.gasUsed` as read by `calcTotalGasFeesDec`. -/
def effGasUsed (res : DryRunResponse) : Option GasUsed :=
  res.effects.bind TxEffects.gasUsed

/-- The string returned when there is no gas information. -/
def zeroString : String := "0"

/-- `calcTotalGasFeesDec` from the util module: `'0'` when the response has
no `effects.gasUsed`, otherwise the decimal string of
`(computationCost + storageCost - storageRebate) / 1e9`. -/
def calcTotalGasFeesDec (res : DryRunResponse) : String :=
  match effGasUsed res with
  | none => zeroString
  | some g =>
    decString9 ((g.computationCost : Int) + g.storageCost - g.storageRebate)

/-- A rendered balance change (`BalanceChange` in the util module). -/
structure BalanceChange where
  symbol : String
  amount : String

/-- The separator used to split coin types. -/
def coinTypeSep : String := "::"

/-- Default symbol when `pop()` yields nothing. -/
def iotaSymbol : String := "IOTA"

/-- `change.coinType.split('::').pop() ?? 'IOTA'`: the last
`::`-separated segment (`split` never returns an empty array, so the
default is never reached, but the model keeps the fallback). -/
def lastSegment (s : String) : String :=
  match (s.splitOn coinTypeSep).getLast? with
  | some seg => seg
  | none => iotaSymbol

/-- The hexadecimal prefix prepended to the sender in the owner filter. -/
def hexPrefix : String := "0x"

/-- The balance-change extraction inside `buildTransactionBlock`:
`dryRunRes.balanceChanges` filtered to `change.owner === ` the template
string `0x${sender}`, each mapped to its symbol and its amount divided by
`1e9`; an absent array leaves the initial empty list. -/
def extractBalanceChanges (sender : String) (res : DryRunResponse) :
    List BalanceChange :=
  match res.balanceChanges with
  | none => []
  | some changes =>
    (changes.filter (fun c => c.owner == hexPrefix ++ sender)).map
      (fun c => ⟨lastSegment c.coinType, decString9 c.amount⟩)

/-- Result record of `buildTransactionBlock` (`BuildTransactionBlockResult`
in the util module, with its optional fields). -/
structure BuildResult where
  isError : Bool
  transactionBlockBytes : Option (List Nat)
  errorMessage : Option String
  dryRunRes : Option DryRunResponse
  balanceChanges : Option (List BalanceChange)

/-- The record returned by the `catch` branch of `buildTransactionBlock`. -/
def catchResult (msg : String) : BuildResult :=
  ⟨true, none, some msg, none, none⟩

/-- User responses of a `snap_dialog` confirmation: the code accepts only
the strict boolean `true`; `false` and `null` (dialog dismissed) are the
other values the host returns. -/
inductive DialogResponse where
  | jsTrue
  | jsFalse
  | jsNull
deriving DecidableEq

/-- The two dialog types requested by the handlers. -/
inductive DialogKind where
  | confirmation
  | alert
deriving DecidableEq

/-- A rendered node of the balance-changes section. -/
inductive UiNode where
  | divider
  | text (s : String)
deriving DecidableEq

/-- Observable events of one request, in execution order. -/
inductive Event where
  | stateRead
  | resolvedUrl
  | derivedKey
  | builtBytes
  | dryRan
  | dialogShown (kind : DialogKind) (balanceSection : List UiNode)
  | signed
  | executed
  | stateWritten
deriving DecidableEq

/-- The oracle for one RPC request: the persisted state at entry and the
outcome of every external call the handler may make (host wallet, chain
SDK, network, dialog). -/
structure Env where
  stored : Option SnapState
  keyDerivation : Except String String
  txFrom : Except String Unit
  buildBytes : Except String (List Nat)
  dryRun : Except String DryRunResponse
  dialogResponse : DialogResponse
  signMessageResult : String × String
  signTxResult : String × String
  executeResult : Except String String
  accountPubkey : String

/-- `buildTransactionBlock` from the util module: resolve the endpoint from
the persisted state, build the transaction bytes, dry-run them; a dry run
without `status === 'success'` yields an error record carrying
`status.error ?? 'Unknown error'`; any exception on the way is caught and
returned as an error record with the exception message.  Returns the
result record together with the trace of events that occurred. -/
def buildTransactionBlock (env : Env) (chain : Json) (sender : String) :
    BuildResult × List Event :=
  match getFullnodeUrlForChain env.stored chain with
  | .error e => (catchResult e, [Event.stateRead])
  | .ok _url =>
    match env.buildBytes with
    | .error e => (catchResult e, [Event.stateRead, Event.resolvedUrl])
    | .ok bytes =>
      match env.dryRun with
      | .error e =>
        (catchResult e, [Event.stateRead, Event.resolvedUrl, Event.builtBytes])
      | .ok res =>
        if dryRunSuccess res then
          (⟨false, some bytes, none, some res,
             some (extractBalanceChanges sender res)⟩,
           [Event.stateRead, Event.resolvedUrl, Event.builtBytes, Event.dryRan])
        else
          (⟨true, some bytes, some (dryRunErrorMsg res), some res, none⟩,
           [Event.stateRead, Event.resolvedUrl, Event.builtBytes, Event.dryRan])

/-- Header line of the balance-changes section. -/
def balanceHeader : String := "**Balance Changes:**"

/-- Separator between amount and symbol in a balance line. -/
def spaceStr : String := " "

/-- `genBalanceChangesSection` from `src/index.tsx`: empty for an absent or
empty list, otherwise a divider, the header, and one text line
`` `${change.amount} ${change.symbol}` `` per change. -/
def genBalanceChangesSection (balanceChanges : Option (List BalanceChange)) :
    List UiNode :=
  match balanceChanges with
  | none => []
  | some [] => []
  | some changes =>
    UiNode.divider :: UiNode.text balanceHeader ::
      changes.map (fun c => UiNode.text (c.amount ++ spaceStr ++ c.symbol))

/-- Errors a request can end with: the snap error classes from
`src/errors.ts` (`InvalidParamsError`, `InvalidRequestMethodError`,
`UserRejectionError`, `DryRunFailedError`, each thrown through
`asSimpleError`) and `jsError` for a plain thrown `Error` (admin
assertion, unsupported chain, key-derivation failure, runtime type
errors, network exceptions). -/
inductive SnapError where
  | invalidParams (msg : String)
  | invalidRequestMethod (method : String)
  | userRejection
  | dryRunFailed (msg : Option String)
  | jsError (msg : String)

/-- Successful results of the six RPC methods. -/
inductive RpcResult where
  | signedMessage (bytes signature : String)
  | signedTransaction (bytes signature : String)
  | accounts (address publicKey : String)
  | executedOut (out : String)
  | storedState (s : SnapState)
  | unitResult

/-- Everything observable about one request: the returned or thrown value,
the persisted state after the call, and the event trace. -/
structure RunOutcome where
  result : Except SnapError RpcResult
  finalStored : Option SnapState
  events : List Event

/-- `validate` from `src/types.ts` with the mock schema validators: the
schema function is a plain cast, it never throws, so validation always
succeeds and returns the parameters unchanged. -/
def validate (params : Json) : Except String Json := .ok params

/-- Field name of the personal-message payload. -/
def messageField : String := "message"

/-- Field name of the chain identifier. -/
def chainField : String := "chain"

/-- Field name of the admin network selector. -/
def networkField : String := "network"

/-- Field name of the admin URL value. -/
def urlField : String := "url"

/-- Message of the TypeError thrown by `Buffer.from` on an unusable
argument. -/
def bufferTypeErrorMsg : String :=
  "The first argument must be of type string or an instance of Buffer"

/-- `Buffer.from(serialized.message, 'base64')` in
`deserializeIotaSignMessageInput`: succeeds on a string (lenient base64
decoding) or an array of bytes, throws a TypeError otherwise.  The byte
contents are not modelled; only success or failure is observable here. -/
def bufferFromB64 : Json → Except String Unit
  | .str _ => .ok ()
  | .arr _ => .ok ()
  | _ => .error bufferTypeErrorMsg

/-- The `signPersonalMessage` case of `onRpcRequest`: validate (always
succeeds), decode the message, derive the keypair, show the confirmation
dialog, and sign only on a strict `true` answer; any other answer throws
`UserRejectionError`. -/
def signPersonalMessageHandler (env : Env) (params : Json) : RunOutcome :=
  match validate params with
  | .error e => ⟨.error (.invalidParams e), env.stored, []⟩
  | .ok ps =>
    match bufferFromB64 (ps.getField messageField) with
    | .error e => ⟨.error (.jsError e), env.stored, []⟩
    | .ok _ =>
      match env.keyDerivation with
      | .error e => ⟨.error (.jsError e), env.stored, []⟩
      | .ok _sender =>
        let evs := [Event.derivedKey,
          Event.dialogShown DialogKind.confirmation []]
        if env.dialogResponse = DialogResponse.jsTrue then
          ⟨.ok (.signedMessage env.signMessageResult.1 env.signMessageResult.2),
            env.stored, evs ++ [Event.signed]⟩
        else
          ⟨.error .userRejection, env.stored, evs⟩

/-- The `getAccounts` case of `onRpcRequest`: derive the keypair and return
the serialized wallet account. -/
def getAccountsHandler (env : Env) : RunOutcome :=
  match env.keyDerivation with
  | .error e => ⟨.error (.jsError e), env.stored, []⟩
  | .ok address =>
    ⟨.ok (.accounts address env.accountPubkey), env.stored, [Event.derivedKey]⟩

/-- The `signTransaction` case of `onRpcRequest`: validate (always
succeeds), derive the keypair, `Transaction.from` the payload, build and
dry-run through `buildTransactionBlock`; on an error record show the
alert dialog and throw `DryRunFailedError` with the error message,
otherwise show the confirmation dialog and sign only on a strict `true`
answer. -/
def signTransactionHandler (env : Env) (params : Json) : RunOutcome :=
  match validate params with
  | .error e => ⟨.error (.invalidParams e), env.stored, []⟩
  | .ok ps =>
    match env.keyDerivation with
    | .error e => ⟨.error (.jsError e), env.stored, []⟩
    | .ok sender =>
      match env.txFrom with
      | .error e => ⟨.error (.jsError e), env.stored, [Event.derivedKey]⟩
      | .ok _ =>
        let built := buildTransactionBlock env (ps.getField chainField) sender
        let result := built.1
        let evs := Event.derivedKey :: built.2
        let sec := genBalanceChangesSection result.balanceChanges
        if result.isError then
          ⟨.error (.dryRunFailed result.errorMessage), env.stored,
            evs ++ [Event.dialogShown DialogKind.alert sec]⟩
        else
          let evs2 := evs ++ [Event.dialogShown DialogKind.confirmation sec]
          if env.dialogResponse = DialogResponse.jsTrue then
            ⟨.ok (.signedTransaction env.signTxResult.1 env.signTxResult.2),
              env.stored, evs2 ++ [Event.signed]⟩
          else
            ⟨.error .userRejection, env.stored, evs2⟩

/-- The `signAndExecuteTransaction` case of `onRpcRequest`: validate
(always succeeds), resolve the endpoint for the chain (throwing the raw
`Unsupported chain` error before anything else), derive the keypair,
build and dry-run through `buildTransactionBlock`; on an error record
show the alert dialog and throw `DryRunFailedError`, otherwise show the
confirmation dialog and, only on a strict `true` answer, sign and
broadcast through the client. -/
def signAndExecuteTransactionHandler (env : Env) (params : Json) :
    RunOutcome :=
  match validate params with
  | .error e => ⟨.error (.invalidParams e), env.stored, []⟩
  | .ok ps =>
    let chain := ps.getField chainField
    match getFullnodeUrlForChain env.stored chain with
    | .error e => ⟨.error (.jsError e), env.stored, [Event.stateRead]⟩
    | .ok _url =>
      match env.keyDerivation with
      | .error e =>
        ⟨.error (.jsError e), env.stored, [Event.stateRead, Event.resolvedUrl]⟩
      | .ok sender =>
        let built := buildTransactionBlock env chain sender
        let result := built.1
        let evs := Event.stateRead :: Event.resolvedUrl :: Event.derivedKey ::
          built.2
        let sec := genBalanceChangesSection result.balanceChanges
        if result.isError then
          ⟨.error (.dryRunFailed result.errorMessage), env.stored,
            evs ++ [Event.dialogShown DialogKind.alert sec]⟩
        else
          let evs2 := evs ++ [Event.dialogShown DialogKind.confirmation sec]
          if env.dialogResponse = DialogResponse.jsTrue then
            match env.executeResult with
            | .ok out =>
              ⟨.ok (.executedOut out), env.stored,
                evs2 ++ [Event.signed, Event.executed]⟩
            | .error e =>
              ⟨.error (.jsError e), env.stored,
                evs2 ++ [Event.signed, Event.executed]⟩
          else
            ⟨.error .userRejection, env.stored, evs2⟩

/-- The `admin_getStoredState` case of `onRpcRequest`: assert the admin
origin, then return the stored state. -/
def adminGetStoredStateHandler (env : Env) (origin : String) : RunOutcome :=
  if isAdminOrigin origin then
    ⟨.ok (.storedState (getStoredState env.stored)), env.stored,
      [Event.stateRead]⟩
  else
    ⟨.error (.jsError unauthorizedMsg), env.stored, []⟩

/-- Admin network selector value. -/
def netMainnet : String := "mainnet"

/-- Admin network selector value. -/
def netTestnet : String := "testnet"

/-- Admin network selector value. -/
def netDevnet : String := "devnet"

/-- Admin network selector value. -/
def netLocalnet : String := "localnet"

/-- The `admin_setFullnodeUrl` case of `onRpcRequest`: assert the admin
origin, validate (always succeeds), read the state, overwrite the one URL
field selected by a strict string match on `params.network` (any other
network value selects nothing), and persist the state. -/
def adminSetFullnodeUrlHandler (env : Env) (origin : String) (params : Json) :
    RunOutcome :=
  if isAdminOrigin origin then
    match validate params with
    | .error e => ⟨.error (.invalidParams e), env.stored, []⟩
    | .ok ps =>
      let st := getStoredState env.stored
      let network := ps.getField networkField
      let url := ps.getField urlField
      let st2 :=
        if network.strEq netMainnet then { st with mainnetUrl := url }
        else if network.strEq netTestnet then { st with testnetUrl := url }
        else if network.strEq netDevnet then { st with devnetUrl := url }
        else if network.strEq netLocalnet then { st with localnetUrl := url }
        else st
      ⟨.ok .unitResult, some st2, [Event.stateRead, Event.stateWritten]⟩
  else
    ⟨.error (.jsError unauthorizedMsg), env.stored, []⟩

/-- RPC method name. -/
def mSignPersonalMessage : String := "signPersonalMessage"

/-- RPC method name. -/
def mGetAccounts : String := "getAccounts"

/-- RPC method name. -/
def mSignTransaction : String := "signTransaction"

/-- RPC method name. -/
def mSignAndExecuteTransaction : String := "signAndExecuteTransaction"

/-- RPC method name. -/
def mAdminGetStoredState : String := "admin_getStoredState"

/-- RPC method name. -/
def mAdminSetFullnodeUrl : String := "admin_setFullnodeUrl"

/-- The `onRpcRequest` dispatcher from `src/index.tsx`: switch on the
request method; an unknown method throws
`InvalidRequestMethodError.asSimpleError(request.method)`. -/
def onRpcRequest (env : Env) (origin method : String) (params : Json) :
    RunOutcome :=
  if method = mSignPersonalMessage then signPersonalMessageHandler env params
  else if method = mGetAccounts then getAccountsHandler env
  else if method = mSignTransaction then signTransactionHandler env params
  else if method = mSignAndExecuteTransaction then
    signAndExecuteTransactionHandler env params
  else if method = mAdminGetStoredState then
    adminGetStoredStateHandler env origin
  else if method = mAdminSetFullnodeUrl then
    adminSetFullnodeUrlHandler env origin params
  else
    ⟨.error (.invalidRequestMethod method), env.stored, []⟩

/-! Denotation of decimal strings.

To state that the produced gas-fee and amount strings denote exactly the
intended rational values, a small parser maps a decimal string (plain or
exponent notation, optional leading minus) to the rational it denotes.
The parser is independent of the renderer: it folds the digit characters
and divides by the appropriate power of ten. -/

/-- Value of a most-significant-first digit character list. -/
def parseUDigits (cs : List Char) : Nat :=
  cs.foldl (fun a c => a * 10 + charToDigit c) 0

/-- Splits a character list at the first occurrence of `t`; returns the
prefix and, when `t` occurs, the suffix after it. -/
def splitAtChar (t : Char) : List Char → List Char × Option (List Char)
  | [] => ([], none)
  | c :: cs =>
    if c = t then ([], some cs)
    else
      let p := splitAtChar t cs
      (c :: p.1, p.2)

/-- Value of a mantissa `digits[.digits]`. -/
def parseMantissa (cs : List Char) : ℚ :=
  match splitAtChar dotChar cs with
  | (ip, none) => (parseUDigits ip : ℚ)
  | (ip, some fp) =>
    (parseUDigits ip : ℚ) + (parseUDigits fp : ℚ) / (10 : ℚ) ^ fp.length

/-- Value of an exponent `[-]digits`. -/
def parseExp (cs : List Char) : Int :=
  match cs with
  | [] => 0
  | c :: rest =>
    if c = dashChar then -(parseUDigits rest : Int) else (parseUDigits cs : Int)

/-- Value of an unsigned decimal string `mantissa[e exponent]`. -/
def parseUnsignedDec (cs : List Char) : ℚ :=
  match splitAtChar expChar cs with
  | (m, none) => parseMantissa m
  | (m, some ex) => parseMantissa m * (10 : ℚ) ^ parseExp ex

/-- The rational value denoted by a decimal string. -/
def decStrVal (s : String) : ℚ :=
  match s.data with
  | [] => 0
  | c :: rest =>
    if c = dashChar then -parseUnsignedDec rest
    else parseUnsignedDec (c :: rest)

/-! Concrete sample data for witnesses and counterexamples. -/

/-- A successful dry-run status. -/
def okStatus : TxStatus := ⟨successStr, none⟩

/-- Sample gas usage: total `1000000 + 2000000 - 500000 = 2500000` nano. -/
def okGas : GasUsed := ⟨1000000, 2000000, 500000⟩

/-- Sample sender address as the chain SDK returns it (`0x`-prefixed). -/
def sampleSender : String := "0xabc"

/-- Sample coin type. -/
def sampleCoinType : String := "0x2::iota::IOTA"

/-- A balance change owned by the sample sender (owner equals the sender
address exactly). -/
def sampleChange : RawBalanceChange := ⟨sampleSender, sampleCoinType, 1000000000⟩

/-- A successful dry-run response whose only balance change is owned by the
sample sender. -/
def okDryRun : DryRunResponse :=
  ⟨some ⟨some okStatus, some okGas⟩, some [sampleChange]⟩

/-- A failed dry-run response carrying an error message. -/
def failDryRun : DryRunResponse :=
  ⟨some ⟨some ⟨"failure", some ("InsufficientGas")⟩, some okGas⟩, none⟩

/-- Parameters with a supported chain. -/
def sampleTxParams : Json := Json.obj [(chainField, Json.str chainMainnet)]

/-- Parameters with an unsupported chain. -/
def badChainParams : Json := Json.obj [(chainField, Json.str ("iota:bognet"))]

/-- Parameters for `signPersonalMessage`. -/
def sampleMsgParams : Json := Json.obj [(messageField, Json.str ("aGVsbG8="))]

/-- Non-conforming `admin_setFullnodeUrl` parameters: the network selector
is outside the schema enumeration. -/
def bogusAdminParams : Json :=
  Json.obj [(networkField, Json.str ("bogus")),
    (urlField, Json.str ("http://evil.example"))]

/-- Conforming `admin_setFullnodeUrl` parameters. -/
def goodAdminParams : Json :=
  Json.obj [(networkField, Json.str netTestnet),
    (urlField, Json.str ("http://10.0.0.1:9000"))]

/-- A fully successful oracle: every external call succeeds and the user
approves the dialog. -/
def baseEnv : Env where
  stored := none
  keyDerivation := .ok sampleSender
  txFrom := .ok ()
  buildBytes := .ok [1, 2, 3]
  dryRun := .ok okDryRun
  dialogResponse := .jsTrue
  signMessageResult := ("bWVzc2FnZQ==", "sigA")
  signTxResult := ("dHhieXRlcw==", "sigB")
  executeResult := .ok "digest1"
  accountPubkey := "pubkeyB64"

/-- A non-admin dapp origin. -/
def originSite : String := "https://dapp.example"

/-- The fully successful oracle with the dialog rejected. -/
def rejectEnv : Env := { baseEnv with dialogResponse := DialogResponse.jsFalse }

/-- The oracle whose dry run completes but reports a failure status. -/
def failEnv : Env := { baseEnv with dryRun := .ok failDryRun }

/-- A balance change whose owner carries the doubled prefix the code
compares against (`0x` prepended to the already-prefixed sender). -/
def matchedChange : RawBalanceChange :=
  ⟨hexPrefix ++ sampleSender, sampleCoinType, 2000000000⟩

/-- A successful dry-run response whose only balance change matches the
owner filter of the code. -/
def matchedDryRun : DryRunResponse :=
  ⟨some ⟨some okStatus, some okGas⟩, some [matchedChange]⟩

/-- The successful oracle whose dry run returns `matchedDryRun`. -/
def matchedEnv : Env := { baseEnv with dryRun := .ok matchedDryRun }

/-- A stored state with only the mainnet override set. -/
def overrideState : SnapState :=
  ⟨Json.str ("https://node.example:443"), .undefined, .undefined, .undefined⟩

/-- The successful oracle running against `overrideState`. -/
def overrideEnv : Env := { baseEnv with stored := some overrideState }

/-! Helper lemmas: digits and digit characters. -/

theorem digitsAux_eq_digits (fuel : Nat) :
    ∀ n, n ≤ fuel → digitsAux fuel n = Nat.digits 10 n := by
  induction fuel with
  | zero =>
    intro n hn
    interval_cases n
    simp [digitsAux]
  | succ f ih =>
    intro n hn
    by_cases hz : n = 0
    · subst hz; simp [digitsAux]
    · have hpos : 0 < n := Nat.pos_of_ne_zero hz
      have hdiv : n / 10 < n := Nat.div_lt_self hpos (by norm_num)
      rw [digitsAux, if_neg hz, ih (n / 10) (by omega),
        Nat.digits_def' (by norm_num : 1 < 10) hpos]

theorem myDigits_eq_digits (n : Nat) : myDigits n = Nat.digits 10 n :=
  digitsAux_eq_digits n n le_rfl

theorem charToDigit_digitChar {d : Nat} (hd : d < 10) :
    charToDigit (digitChar d) = d := by
  interval_cases d <;> decide

theorem digitChar_ne_dot {d : Nat} (hd : d < 10) : digitChar d ≠ dotChar := by
  interval_cases d <;> decide

theorem digitChar_ne_dash {d : Nat} (hd : d < 10) : digitChar d ≠ dashChar := by
  interval_cases d <;> decide

theorem digitChar_ne_exp {d : Nat} (hd : d < 10) : digitChar d ≠ expChar := by
  interval_cases d <;> decide

theorem natMsdDigits_lt (n : Nat) : ∀ d ∈ natMsdDigits n, d < 10 := by
  intro d hd
  rw [natMsdDigits, List.mem_reverse, myDigits_eq_digits] at hd
  exact Nat.digits_lt_base (by norm_num) hd

theorem parseUDigits_foldl_acc (cs : List Char) (acc : Nat) :
    List.foldl (fun a c => a * 10 + charToDigit c) acc cs
      = acc * 10 ^ cs.length + parseUDigits cs := by
  induction cs generalizing acc with
  | nil => simp [parseUDigits]
  | cons c cs ih =>
    simp only [List.foldl_cons, List.length_cons, parseUDigits]
    rw [ih, ih (0 * 10 + charToDigit c)]
    ring

theorem parseUDigits_msd (ds : List Nat) (h : ∀ d ∈ ds, d < 10) :
    parseUDigits ((ds.reverse).map digitChar) = Nat.ofDigits 10 ds := by
  induction ds with
  | nil => simp [parseUDigits]
  | cons d tl ih =>
    have hd : d < 10 := h d (List.mem_cons_self d tl)
    have htl : ∀ x ∈ tl, x < 10 := fun x hx => h x (List.mem_cons_of_mem d hx)
    rw [List.reverse_cons, List.map_append, parseUDigits, List.foldl_append]
    simp only [List.map_cons, List.map_nil, List.foldl_cons, List.foldl_nil]
    rw [show List.foldl (fun a c => a * 10 + charToDigit c) 0
        ((tl.reverse).map digitChar) = parseUDigits ((tl.reverse).map digitChar)
      from rfl]
    rw [ih htl, charToDigit_digitChar hd, Nat.ofDigits_cons]
    ring

theorem parseUDigits_natMsd (n : Nat) :
    parseUDigits ((natMsdDigits n).map digitChar) = n := by
  rw [natMsdDigits, myDigits_eq_digits,
    parseUDigits_msd _ (fun d hd => Nat.digits_lt_base (by norm_num) hd),
    Nat.ofDigits_digits]

theorem parseUDigits_natChars (n : Nat) : parseUDigits (natChars n) = n := by
  by_cases hz : n = 0
  · subst hz; decide
  · rw [natChars, if_neg hz, parseUDigits_natMsd]

theorem parseUDigits_replicate_zero (k : Nat) (cs : List Char) :
    parseUDigits (List.replicate k (digitChar 0) ++ cs) = parseUDigits cs := by
  induction k with
  | zero => simp
  | succ m ih =>
    rw [List.replicate_succ, List.cons_append, parseUDigits, List.foldl_cons]
    simpa [parseUDigits] using ih

theorem splitAtChar_not_mem {t : Char} {cs : List Char} (h : t ∉ cs) :
    splitAtChar t cs = (cs, none) := by
  induction cs with
  | nil => rfl
  | cons c cs ih =>
    have hct : ¬ c = t := fun e => h (by rw [← e]; exact List.mem_cons_self c cs)
    have h2 : t ∉ cs := fun hm => h (List.mem_cons_of_mem c hm)
    simp [splitAtChar, hct, ih h2]

theorem splitAtChar_append {t : Char} {a b : List Char} (h : t ∉ a) :
    splitAtChar t (a ++ t :: b) = (a, some b) := by
  induction a with
  | nil => simp [splitAtChar]
  | cons c cs ih =>
    have hct : ¬ c = t := fun e => h (by rw [← e]; exact List.mem_cons_self c cs)
    have h2 : t ∉ cs := fun hm => h (List.mem_cons_of_mem c hm)
    simp [splitAtChar, hct, ih h2]

theorem splitTens_spec (fuel : Nat) :
    ∀ n, (splitTens fuel n).1 * 10 ^ (splitTens fuel n).2 = n := by
  induction fuel with
  | zero => intro n; simp [splitTens]
  | succ f ih =>
    intro n
    by_cases h : n % 10 = 0 ∧ n ≠ 0
    · have hdvd : 10 ∣ n := Nat.dvd_of_mod_eq_zero h.1
      simp only [splitTens, if_pos h]
      calc (splitTens f (n / 10)).1 * 10 ^ ((splitTens f (n / 10)).2 + 1)
          = (splitTens f (n / 10)).1 * 10 ^ (splitTens f (n / 10)).2 * 10 := by
            ring
        _ = n / 10 * 10 := by rw [ih]
        _ = n := Nat.div_mul_cancel hdvd
    · simp [splitTens, if_neg h]

theorem splitTens_snd_le (fuel : Nat) : ∀ n, (splitTens fuel n).2 ≤ fuel := by
  induction fuel with
  | zero => intro n; simp [splitTens]
  | succ f ih =>
    intro n
    by_cases h : n % 10 = 0 ∧ n ≠ 0
    · simp only [splitTens, if_pos h]
      exact Nat.succ_le_succ (ih (n / 10))
    · simp only [splitTens, if_neg h]
      exact Nat.zero_le _

theorem splitTens_fst_ne_zero (fuel n : Nat) (h : n ≠ 0) :
    (splitTens fuel n).1 ≠ 0 := by
  intro hm
  apply h
  rw [← splitTens_spec fuel n, hm, zero_mul]

theorem digitsLen_le {m k : Nat} (h : m < 10 ^ k) :
    (Nat.digits 10 m).length ≤ k := by
  by_cases hm : m = 0
  · subst hm; simp
  · by_contra hlt
    push_neg at hlt
    have h1 : (10 : Nat) ^ (Nat.digits 10 m).length ≤ 10 * m :=
      Nat.base_pow_length_digits_le 10 m (by norm_num) hm
    have h3 : (10 : Nat) ^ (Nat.digits 10 m).length < 10 ^ (k + 1) := by
      calc (10 : Nat) ^ (Nat.digits 10 m).length ≤ 10 * m := h1
        _ < 10 * 10 ^ k := by omega
        _ = 10 ^ (k + 1) := by ring
    have h4 : (Nat.digits 10 m).length < k + 1 :=
      (Nat.pow_lt_pow_iff_right (by norm_num : 1 < 10)).mp h3
    omega

theorem digitsLen_mul_pow (m : Nat) (hm : m ≠ 0) (z : Nat) :
    (Nat.digits 10 (m * 10 ^ z)).length = (Nat.digits 10 m).length + z := by
  induction z with
  | zero => simp
  | succ k ih =>
    have hmz : m * 10 ^ k ≠ 0 :=
      Nat.mul_ne_zero hm (pow_ne_zero k (by norm_num))
    have hstep : m * 10 ^ (k + 1) = m * 10 ^ k * 10 := by ring
    rw [hstep, Nat.digits_len 10 _ (by norm_num)
        (Nat.mul_ne_zero hmz (by norm_num)),
      Nat.log_mul_base (by norm_num) hmz,
      ← Nat.digits_len 10 _ (by norm_num) hmz, ih]
    ring

theorem mem_natChars (n : Nat) {c : Char} (hc : c ∈ natChars n) :
    ∃ d, d < 10 ∧ c = digitChar d := by
  rw [natChars] at hc
  by_cases hz : n = 0
  · rw [if_pos hz] at hc
    simp only [List.mem_singleton] at hc
    exact ⟨0, by norm_num, hc⟩
  · rw [if_neg hz] at hc
    obtain ⟨d, hd, rfl⟩ := List.mem_map.mp hc
    exact ⟨d, natMsdDigits_lt n d hd, rfl⟩

theorem mem_fracChars (fp : Nat) {c : Char} (hc : c ∈ fracChars fp) :
    ∃ d, d < 10 ∧ c = digitChar d := by
  simp only [fracChars, List.mem_append, List.mem_replicate, List.mem_map] at hc
  rcases hc with ⟨-, rfl⟩ | ⟨d, hd, rfl⟩
  · exact ⟨0, by norm_num, rfl⟩
  · exact ⟨d, natMsdDigits_lt _ d hd, rfl⟩

theorem dot_not_mem_natChars (n : Nat) : dotChar ∉ natChars n := by
  intro hc
  obtain ⟨d, hd, he⟩ := mem_natChars n hc
  exact digitChar_ne_dot hd he.symm

theorem exp_not_mem_natChars (n : Nat) : expChar ∉ natChars n := by
  intro hc
  obtain ⟨d, hd, he⟩ := mem_natChars n hc
  exact digitChar_ne_exp hd he.symm

theorem exp_not_mem_fracChars (fp : Nat) : expChar ∉ fracChars fp := by
  intro hc
  obtain ⟨d, hd, he⟩ := mem_fracChars fp hc
  exact digitChar_ne_exp hd he.symm

theorem parseUDigits_fracChars (fp : Nat) :
    parseUDigits (fracChars fp) = (splitTens 9 fp).1 := by
  simp only [fracChars]
  rw [parseUDigits_replicate_zero, parseUDigits_natMsd]

theorem fracChars_length (fp : Nat) (hfp : fp ≠ 0) (hlt : fp < 1000000000) :
    (fracChars fp).length = 9 - (splitTens 9 fp).2 := by
  have hspec := splitTens_spec 9 fp
  have hzle := splitTens_snd_le 9 fp
  have hm0 : (splitTens 9 fp).1 ≠ 0 := splitTens_fst_ne_zero 9 fp hfp
  have hmlt : (splitTens 9 fp).1 < 10 ^ (9 - (splitTens 9 fp).2) := by
    by_contra hge
    push_neg at hge
    have : 10 ^ (9 - (splitTens 9 fp).2) * 10 ^ (splitTens 9 fp).2 ≤ fp := by
      calc 10 ^ (9 - (splitTens 9 fp).2) * 10 ^ (splitTens 9 fp).2
          ≤ (splitTens 9 fp).1 * 10 ^ (splitTens 9 fp).2 :=
            Nat.mul_le_mul_right _ hge
        _ = fp := hspec
    rw [← pow_add] at this
    have h9 : 9 - (splitTens 9 fp).2 + (splitTens 9 fp).2 = 9 := by omega
    rw [h9] at this
    norm_num at this
    omega
  have hcore : ((natMsdDigits (splitTens 9 fp).1).map digitChar).length
      ≤ 9 - (splitTens 9 fp).2 := by
    rw [List.length_map, natMsdDigits, List.length_reverse, myDigits_eq_digits]
    exact digitsLen_le hmlt
  simp only [fracChars, List.length_append, List.length_replicate]
  omega

theorem parseUDigits_cons (c : Char) (cs : List Char) :
    parseUDigits (c :: cs) = charToDigit c * 10 ^ cs.length + parseUDigits cs := by
  rw [parseUDigits, List.foldl_cons, parseUDigits_foldl_acc]
  simp

theorem ratio_shift (m z fp : Nat) (hz : z ≤ 9) (hspec : m * 10 ^ z = fp) :
    (m : ℚ) / 10 ^ (9 - z) = (fp : ℚ) / 1000000000 := by
  have hfp : (fp : ℚ) = (m : ℚ) * 10 ^ z := by
    rw [← hspec]; push_cast; ring
  have hsum : (10 : ℚ) ^ z * 10 ^ (9 - z) = 10 ^ 9 := by
    rw [← pow_add]
    congr 1
    omega
  rw [hfp, div_eq_div_iff (by positivity) (by norm_num)]
  calc (m : ℚ) * 1000000000 = (m : ℚ) * 10 ^ 9 := by norm_num
    _ = (m : ℚ) * (10 ^ z * 10 ^ (9 - z)) := by rw [hsum]
    _ = (m : ℚ) * 10 ^ z * 10 ^ (9 - z) := by ring

theorem parseUnsignedDec_eq_none {cs m : List Char}
    (h : splitAtChar expChar cs = (m, none)) :
    parseUnsignedDec cs = parseMantissa m := by
  unfold parseUnsignedDec
  rw [h]

theorem parseUnsignedDec_eq_some {cs m ex : List Char}
    (h : splitAtChar expChar cs = (m, some ex)) :
    parseUnsignedDec cs = parseMantissa m * (10 : ℚ) ^ parseExp ex := by
  unfold parseUnsignedDec
  rw [h]

theorem parseMantissa_eq_none {cs m : List Char}
    (h : splitAtChar dotChar cs = (m, none)) :
    parseMantissa cs = (parseUDigits m : ℚ) := by
  unfold parseMantissa
  rw [h]

theorem parseMantissa_eq_some {cs m fp : List Char}
    (h : splitAtChar dotChar cs = (m, some fp)) :
    parseMantissa cs
      = (parseUDigits m : ℚ) + (parseUDigits fp : ℚ) / (10 : ℚ) ^ fp.length := by
  unfold parseMantissa
  rw [h]

theorem parseUnsignedDec_plain (ip fp : Nat) (hfp : fp ≠ 0)
    (hlt : fp < 1000000000) :
    parseUnsignedDec (natChars ip ++ dotChar :: fracChars fp)
      = (ip : ℚ) + (fp : ℚ) / 1000000000 := by
  have hexp : expChar ∉ natChars ip ++ dotChar :: fracChars fp := by
    simp only [List.mem_append, List.mem_cons, not_or]
    exact ⟨exp_not_mem_natChars ip, ⟨by decide, exp_not_mem_fracChars fp⟩⟩
  rw [parseUnsignedDec_eq_none (splitAtChar_not_mem hexp),
    parseMantissa_eq_some (splitAtChar_append (dot_not_mem_natChars ip)),
    parseUDigits_natChars, parseUDigits_fracChars, fracChars_length fp hfp hlt,
    ratio_shift _ _ fp (splitTens_snd_le 9 fp) (splitTens_spec 9 fp)]

theorem parseUnsignedDec_expNotation (n : Nat) (hn : n ≠ 0) (hlt : n < 1000) :
    parseUnsignedDec (expNotationChars n) = (n : ℚ) / 1000000000 := by
  have hm0 : (splitTens 9 n).1 ≠ 0 := splitTens_fst_ne_zero 9 n hn
  have hzle : (splitTens 9 n).2 ≤ 9 := splitTens_snd_le 9 n
  have hspec : (splitTens 9 n).1 * 10 ^ (splitTens 9 n).2 = n := splitTens_spec 9 n
  have hne : natMsdDigits (splitTens 9 n).1 ≠ [] := by
    rw [natMsdDigits, myDigits_eq_digits]
    simpa using Nat.digits_ne_nil_iff_ne_zero.mpr hm0
  obtain ⟨d, rest, hds⟩ := List.exists_cons_of_ne_nil hne
  have hd : d < 10 :=
    natMsdDigits_lt _ d (by rw [hds]; exact List.mem_cons_self d rest)
  have hmval : parseUDigits ((d :: rest).map digitChar) = (splitTens 9 n).1 := by
    rw [← hds, parseUDigits_natMsd]
  have hLn : (myDigits n).length
      = (Nat.digits 10 (splitTens 9 n).1).length + (splitTens 9 n).2 := by
    conv_lhs => rw [myDigits_eq_digits, ← hspec]
    rw [digitsLen_mul_pow _ hm0]
  have hLm : (Nat.digits 10 (splitTens 9 n).1).length = rest.length + 1 := by
    have hlen : (natMsdDigits (splitTens 9 n).1).length = rest.length + 1 := by
      rw [hds, List.length_cons]
    rw [natMsdDigits, List.length_reverse, myDigits_eq_digits] at hlen
    exact hlen
  have hLn3 : (myDigits n).length ≤ 3 := by
    rw [myDigits_eq_digits]
    exact digitsLen_le (show n < 10 ^ 3 by omega)
  have hexpval : parseExp (dashChar :: natChars (10 - (myDigits n).length))
      = -(((10 - (myDigits n).length : Nat)) : Int) := by
    simp [parseExp, parseUDigits_natChars]
  have hzpow : (10 : ℚ) ^ (-(((10 - (myDigits n).length : Nat)) : Int))
      = ((10 : ℚ) ^ ((10 - (myDigits n).length : Nat)))⁻¹ := by
    rw [zpow_neg, zpow_natCast]
  have hLk : rest.length + (10 - (myDigits n).length) = 9 - (splitTens 9 n).2 := by
    omega
  have hfinal : ∀ q : ℚ, q = ((splitTens 9 n).1 : ℚ) / 10 ^ rest.length →
      q * (10 : ℚ) ^ (-(((10 - (myDigits n).length : Nat)) : Int))
        = (n : ℚ) / 1000000000 := by
    intro q hq
    rw [hq, hzpow, ← ratio_shift _ _ n hzle hspec, ← hLk, pow_add]
    field_simp
  cases rest with
  | nil =>
    have hmd : (splitTens 9 n).1 = d := by
      simpa [parseUDigits, charToDigit_digitChar hd] using hmval.symm
    have hdot : dotChar ∉ [digitChar d] := by
      intro hc
      simp only [List.mem_singleton] at hc
      exact digitChar_ne_dot hd hc.symm
    have hcoeffE : expChar ∉ [digitChar d] := by
      intro hc
      simp only [List.mem_singleton] at hc
      exact digitChar_ne_exp hd hc.symm
    simp only [expNotationChars, hds]
    rw [parseUnsignedDec_eq_some (splitAtChar_append hcoeffE), hexpval]
    apply hfinal
    rw [parseMantissa_eq_none (splitAtChar_not_mem hdot)]
    rw [show parseUDigits [digitChar d] = d by
      simp [parseUDigits, charToDigit_digitChar hd]]
    rw [hmd]
    simp
  | cons r rs =>
    have hsplitm : (splitTens 9 n).1
        = d * 10 ^ (r :: rs).length + parseUDigits ((r :: rs).map digitChar) := by
      conv_lhs => rw [← hmval]
      rw [List.map_cons, parseUDigits_cons, charToDigit_digitChar hd,
        List.length_map]
    have hdot : dotChar ∉ [digitChar d] := by
      intro hc
      simp only [List.mem_singleton] at hc
      exact digitChar_ne_dot hd hc.symm
    have hcoeffE : expChar ∉ digitChar d :: dotChar :: (r :: rs).map digitChar := by
      intro hc
      rcases List.mem_cons.mp hc with hc1 | hc2
      · exact digitChar_ne_exp hd hc1.symm
      · rcases List.mem_cons.mp hc2 with hc3 | hc4
        · exact absurd hc3.symm (by decide)
        · obtain ⟨x, hx, hcx⟩ := List.mem_map.mp hc4
          have hx10 : x < 10 :=
            natMsdDigits_lt _ x (by rw [hds]; exact List.mem_cons_of_mem d hx)
          exact digitChar_ne_exp hx10 hcx
    have hsplitdot :
        splitAtChar dotChar (digitChar d :: dotChar :: (r :: rs).map digitChar)
          = ([digitChar d], some ((r :: rs).map digitChar)) := by
      rw [show digitChar d :: dotChar :: (r :: rs).map digitChar
          = [digitChar d] ++ dotChar :: (r :: rs).map digitChar from rfl]
      exact splitAtChar_append hdot
    simp only [expNotationChars, hds]
    rw [parseUnsignedDec_eq_some (splitAtChar_append hcoeffE), hexpval]
    apply hfinal
    rw [parseMantissa_eq_some hsplitdot]
    rw [show parseUDigits [digitChar d] = d by
      simp [parseUDigits, charToDigit_digitChar hd]]
    have hcast : ((splitTens 9 n).1 : ℚ)
        = (d : ℚ) * 10 ^ (r :: rs).length
          + (parseUDigits ((r :: rs).map digitChar) : ℚ) := by
      rw [hsplitm]
      push_cast
      ring
    rw [List.length_map, hcast]
    have hpow : ((10 : ℚ) ^ (r :: rs).length) ≠ 0 := by positivity
    field_simp

theorem natChars_head (k : Nat) :
    ∃ d rest, d < 10 ∧ natChars k = digitChar d :: rest := by
  rw [natChars]
  by_cases hz : k = 0
  · rw [if_pos hz]
    exact ⟨0, [], by norm_num, rfl⟩
  · rw [if_neg hz]
    have hne : natMsdDigits k ≠ [] := by
      rw [natMsdDigits, myDigits_eq_digits]
      simpa using Nat.digits_ne_nil_iff_ne_zero.mpr hz
    obtain ⟨d, rest, hds⟩ := List.exists_cons_of_ne_nil hne
    refine ⟨d, rest.map digitChar,
      natMsdDigits_lt k d (by rw [hds]; exact List.mem_cons_self d rest), ?_⟩
    rw [hds, List.map_cons]

theorem expNotationChars_head (n : Nat) :
    ∃ d rest, d < 10 ∧ expNotationChars n = digitChar d :: rest := by
  rcases hds : natMsdDigits (splitTens 9 n).1 with _ | ⟨d, rest⟩
  · refine ⟨0, expChar :: dashChar :: natChars (10 - (myDigits n).length),
      by norm_num, ?_⟩
    simp [expNotationChars, hds]
  · have hd : d < 10 :=
      natMsdDigits_lt _ d (by rw [hds]; exact List.mem_cons_self d rest)
    cases rest with
    | nil =>
      refine ⟨d, expChar :: dashChar :: natChars (10 - (myDigits n).length),
        hd, ?_⟩
      simp [expNotationChars, hds]
    | cons r rs =>
      refine ⟨d, dotChar :: (r :: rs).map digitChar
        ++ expChar :: dashChar :: natChars (10 - (myDigits n).length), hd, ?_⟩
      simp [expNotationChars, hds]

theorem renderAbsChars_head (n : Nat) :
    ∃ d rest, d < 10 ∧ renderAbsChars n = digitChar d :: rest := by
  rw [renderAbsChars]
  by_cases h0 : n = 0
  · exact ⟨0, [], by norm_num, by rw [if_pos h0]⟩
  · rw [if_neg h0]
    by_cases h1 : n < 1000
    · rw [if_pos h1]
      exact expNotationChars_head n
    · rw [if_neg h1]
      simp only []
      by_cases h2 : n % 1000000000 = 0
      · rw [if_pos h2]
        exact natChars_head _
      · rw [if_neg h2]
        obtain ⟨d, rest, hd, hnc⟩ := natChars_head (n / 1000000000)
        exact ⟨d, rest ++ dotChar :: fracChars (n % 1000000000), hd, by
          rw [hnc, List.cons_append]⟩

theorem parseUnsignedDec_renderAbsChars (n : Nat) :
    parseUnsignedDec (renderAbsChars n) = (n : ℚ) / 1000000000 := by
  rw [renderAbsChars]
  by_cases h0 : n = 0
  · rw [if_pos h0, h0]
    rw [parseUnsignedDec_eq_none (splitAtChar_not_mem (by decide)),
      parseMantissa_eq_none (splitAtChar_not_mem (by decide))]
    rw [show parseUDigits [digitChar 0] = 0 by decide]
    norm_num
  · rw [if_neg h0]
    by_cases h1 : n < 1000
    · rw [if_pos h1]
      exact parseUnsignedDec_expNotation n h0 h1
    · rw [if_neg h1]
      simp only []
      by_cases h2 : n % 1000000000 = 0
      · rw [if_pos h2]
        rw [parseUnsignedDec_eq_none (splitAtChar_not_mem (exp_not_mem_natChars _)),
          parseMantissa_eq_none (splitAtChar_not_mem (dot_not_mem_natChars _)),
          parseUDigits_natChars]
        have hdvd : 1000000000 ∣ n := Nat.dvd_of_mod_eq_zero h2
        rw [eq_div_iff (by norm_num : (1000000000 : ℚ) ≠ 0)]
        rw [show ((n / 1000000000 : Nat) : ℚ) * 1000000000
            = (((n / 1000000000) * 1000000000 : Nat) : ℚ) by push_cast; ring]
        rw [Nat.div_mul_cancel hdvd]
      · rw [if_neg h2]
        rw [parseUnsignedDec_plain _ _ h2 (Nat.mod_lt n (by norm_num))]
        have hnm : ((1000000000 * (n / 1000000000) + n % 1000000000 : Nat) : ℚ)
            = (n : ℚ) := by
          rw [Nat.div_add_mod]
        rw [eq_div_iff (by norm_num : (1000000000 : ℚ) ≠ 0)]
        push_cast at hnm ⊢
        linarith

theorem decStrVal_data_cons {s : String} {c : Char} {rest : List Char}
    (h : s.data = c :: rest) :
    decStrVal s
      = if c = dashChar then -parseUnsignedDec rest
        else parseUnsignedDec (c :: rest) := by
  unfold decStrVal
  rw [h]

theorem decStrVal_decString9 (t : Int) :
    decStrVal (decString9 t) = (t : ℚ) / 1000000000 := by
  by_cases ht : t < 0
  · have hchars : (decString9 t).data = dashChar :: renderAbsChars t.natAbs := by
      rw [decString9, renderChars, if_pos ht]
    rw [decStrVal_data_cons hchars, if_pos rfl, parseUnsignedDec_renderAbsChars]
    have habs : ((t.natAbs : ℚ)) = -(t : ℚ) := by
      rw [Int.cast_natAbs, abs_of_neg ht]
      push_cast
      ring
    rw [habs]
    ring
  · push_neg at ht
    obtain ⟨d, rest, hd, habs⟩ := renderAbsChars_head t.natAbs
    have hchars : (decString9 t).data = digitChar d :: rest := by
      rw [decString9, renderChars, if_neg (not_lt.mpr ht), habs]
    rw [decStrVal_data_cons hchars, if_neg (digitChar_ne_dash hd), ← habs,
      parseUnsignedDec_renderAbsChars]
    have hval : ((t.natAbs : ℚ)) = (t : ℚ) := by
      rw [Int.cast_natAbs, abs_of_nonneg ht]
    rw [hval]

/-! Helper lemmas: the dispatcher and `buildTransactionBlock`. -/

theorem onRpc_spm (env : Env) (origin : String) (params : Json) :
    onRpcRequest env origin mSignPersonalMessage params
      = signPersonalMessageHandler env params := rfl

theorem onRpc_accounts (env : Env) (origin : String) (params : Json) :
    onRpcRequest env origin mGetAccounts params = getAccountsHandler env := rfl

theorem onRpc_st (env : Env) (origin : String) (params : Json) :
    onRpcRequest env origin mSignTransaction params
      = signTransactionHandler env params := rfl

theorem onRpc_sae (env : Env) (origin : String) (params : Json) :
    onRpcRequest env origin mSignAndExecuteTransaction params
      = signAndExecuteTransactionHandler env params := rfl

theorem onRpc_adminGet (env : Env) (origin : String) (params : Json) :
    onRpcRequest env origin mAdminGetStoredState params
      = adminGetStoredStateHandler env origin := rfl

theorem onRpc_adminSet (env : Env) (origin : String) (params : Json) :
    onRpcRequest env origin mAdminSetFullnodeUrl params
      = adminSetFullnodeUrlHandler env origin params := rfl

theorem buildTransactionBlock_catch (env : Env) (chain : Json) (sender : String)
    (e : String) (hg : getFullnodeUrlForChain env.stored chain = .error e) :
    buildTransactionBlock env chain sender = (catchResult e, [Event.stateRead]) := by
  unfold buildTransactionBlock
  rw [hg]

theorem buildTransactionBlock_ok (env : Env) (chain : Json) (sender : String)
    (url : Json) (bytes : List Nat) (res : DryRunResponse)
    (hg : getFullnodeUrlForChain env.stored chain = .ok url)
    (hb : env.buildBytes = .ok bytes) (hd : env.dryRun = .ok res)
    (hs : dryRunSuccess res = true) :
    buildTransactionBlock env chain sender
      = (⟨false, some bytes, none, some res,
           some (extractBalanceChanges sender res)⟩,
         [Event.stateRead, Event.resolvedUrl, Event.builtBytes, Event.dryRan]) := by
  simp only [buildTransactionBlock, hg, hb, hd, hs, if_true]

theorem buildTransactionBlock_dryRunFail (env : Env) (chain : Json)
    (sender : String) (url : Json) (bytes : List Nat) (res : DryRunResponse)
    (hg : getFullnodeUrlForChain env.stored chain = .ok url)
    (hb : env.buildBytes = .ok bytes) (hd : env.dryRun = .ok res)
    (hs : dryRunSuccess res = false) :
    buildTransactionBlock env chain sender
      = (⟨true, some bytes, some (dryRunErrorMsg res), some res, none⟩,
         [Event.stateRead, Event.resolvedUrl, Event.builtBytes, Event.dryRan]) := by
  simp only [buildTransactionBlock, hg, hb, hd, hs, Bool.false_eq_true, if_false]

theorem buildTransactionBlock_events (env : Env) (chain : Json) (sender : String) :
    ∀ x ∈ (buildTransactionBlock env chain sender).2,
      x = Event.stateRead ∨ x = Event.resolvedUrl ∨ x = Event.builtBytes
        ∨ x = Event.dryRan := by
  intro x hx
  unfold buildTransactionBlock at hx
  rcases hg : getFullnodeUrlForChain env.stored chain with e | url <;> rw [hg] at hx
  · simp at hx
    tauto
  · rcases hb : env.buildBytes with e | bytes <;> rw [hb] at hx
    · simp at hx
      tauto
    · rcases hd : env.dryRun with e | res <;> rw [hd] at hx
      · simp at hx
        tauto
      · by_cases hs : dryRunSuccess res <;> simp [hs] at hx <;> tauto

theorem signed_not_mem_build (env : Env) (chain : Json) (sender : String) :
    Event.signed ∉ (buildTransactionBlock env chain sender).2 := by
  intro h
  rcases buildTransactionBlock_events env chain sender _ h with h | h | h | h <;>
    simp at h

theorem executed_not_mem_build (env : Env) (chain : Json) (sender : String) :
    Event.executed ∉ (buildTransactionBlock env chain sender).2 := by
  intro h
  rcases buildTransactionBlock_events env chain sender _ h with h | h | h | h <;>
    simp at h

theorem dialog_not_mem_build (env : Env) (chain : Json) (sender : String)
    (k : DialogKind) (sec : List UiNode) :
    Event.dialogShown k sec ∉ (buildTransactionBlock env chain sender).2 := by
  intro h
  rcases buildTransactionBlock_events env chain sender _ h with h | h | h | h <;>
    simp at h

theorem buildTransactionBlock_not_isError (env : Env) (chain : Json)
    (sender : String)
    (h : (buildTransactionBlock env chain sender).1.isError = false) :
    ∃ url bytes res, getFullnodeUrlForChain env.stored chain = .ok url ∧
      env.buildBytes = .ok bytes ∧ env.dryRun = .ok res ∧
      dryRunSuccess res = true := by
  rcases hg : getFullnodeUrlForChain env.stored chain with e | url
  · rw [buildTransactionBlock_catch env chain sender e hg] at h
    simp [catchResult] at h
  · rcases hb : env.buildBytes with e | bytes
    · unfold buildTransactionBlock at h
      rw [hg, hb] at h
      simp [catchResult] at h
    · rcases hd : env.dryRun with e | res
      · unfold buildTransactionBlock at h
        rw [hg, hb, hd] at h
        simp [catchResult] at h
      · by_cases hs : dryRunSuccess res
        · exact ⟨url, bytes, res, rfl, rfl, rfl, hs⟩
        · rw [buildTransactionBlock_dryRunFail env chain sender url bytes res hg hb hd
            (by simpa using hs)] at h
          simp at h

/-! Dialog gating, handler by handler. -/

theorem spmGate (env : Env) (params : Json) (sec : List UiNode)
    (hreach : Event.dialogShown DialogKind.confirmation sec
      ∈ (signPersonalMessageHandler env params).events) :
    (env.dialogResponse = DialogResponse.jsTrue →
      Event.signed ∈ (signPersonalMessageHandler env params).events) ∧
    (env.dialogResponse ≠ DialogResponse.jsTrue →
      (signPersonalMessageHandler env params).result
          = .error SnapError.userRejection ∧
      Event.signed ∉ (signPersonalMessageHandler env params).events ∧
      Event.executed ∉ (signPersonalMessageHandler env params).events) := by
  rcases hb : bufferFromB64 (Json.getField params messageField) with e | u
  · simp only [signPersonalMessageHandler, validate, hb] at hreach
    simp at hreach
  · rcases hk : env.keyDerivation with e2 | sender
    · simp only [signPersonalMessageHandler, validate, hb, hk] at hreach
      simp at hreach
    · by_cases hdlg : env.dialogResponse = DialogResponse.jsTrue
      · refine ⟨fun _ => ?_, fun hne => absurd hdlg hne⟩
        simp [signPersonalMessageHandler, validate, hb, hk, hdlg]
      · refine ⟨fun heq => absurd heq hdlg, fun _ => ?_⟩
        simp [signPersonalMessageHandler, validate, hb, hk, hdlg]

theorem stGate (env : Env) (params : Json) (sec : List UiNode)
    (hreach : Event.dialogShown DialogKind.confirmation sec
      ∈ (signTransactionHandler env params).events) :
    (env.dialogResponse = DialogResponse.jsTrue →
      Event.signed ∈ (signTransactionHandler env params).events) ∧
    (env.dialogResponse ≠ DialogResponse.jsTrue →
      (signTransactionHandler env params).result
          = .error SnapError.userRejection ∧
      Event.signed ∉ (signTransactionHandler env params).events ∧
      Event.executed ∉ (signTransactionHandler env params).events) := by
  rcases hk : env.keyDerivation with e | sender
  · simp only [signTransactionHandler, validate, hk] at hreach
    simp at hreach
  · rcases ht : env.txFrom with e | u
    · simp only [signTransactionHandler, validate, hk, ht] at hreach
      simp at hreach
    · by_cases hbe :
        (buildTransactionBlock env (Json.getField params chainField) sender).1.isError
      · simp only [signTransactionHandler, validate, hk, ht, hbe, if_true] at hreach
        simp only [List.mem_cons, List.mem_append, List.mem_singleton] at hreach
        rcases hreach with h | h
        · rcases h with h1 | h2
          · simp at h1
          · exact absurd h2 (dialog_not_mem_build env _ sender _ _)
        · simp at h
      · by_cases hdlg : env.dialogResponse = DialogResponse.jsTrue
        · refine ⟨fun _ => ?_, fun hne => absurd hdlg hne⟩
          simp [signTransactionHandler, validate, hk, ht, hbe, hdlg]
        · refine ⟨fun heq => absurd heq hdlg, fun _ => ?_⟩
          refine ⟨?_, ?_, ?_⟩ <;>
            simp [signTransactionHandler, validate, hk, ht, hbe, hdlg,
              signed_not_mem_build, executed_not_mem_build]

theorem saeGate (env : Env) (params : Json) (sec : List UiNode)
    (hreach : Event.dialogShown DialogKind.confirmation sec
      ∈ (signAndExecuteTransactionHandler env params).events) :
    (env.dialogResponse = DialogResponse.jsTrue →
      Event.signed ∈ (signAndExecuteTransactionHandler env params).events) ∧
    (env.dialogResponse ≠ DialogResponse.jsTrue →
      (signAndExecuteTransactionHandler env params).result
          = .error SnapError.userRejection ∧
      Event.signed ∉ (signAndExecuteTransactionHandler env params).events ∧
      Event.executed ∉ (signAndExecuteTransactionHandler env params).events) := by
  rcases hg : getFullnodeUrlForChain env.stored (Json.getField params chainField)
    with e | url
  · simp only [signAndExecuteTransactionHandler, validate, hg] at hreach
    simp at hreach
  · rcases hk : env.keyDerivation with e2 | sender
    · simp only [signAndExecuteTransactionHandler, validate, hg, hk] at hreach
      simp at hreach
    · by_cases hbe :
        (buildTransactionBlock env (Json.getField params chainField) sender).1.isError
      · simp only [signAndExecuteTransactionHandler, validate, hg, hk, hbe,
          if_true] at hreach
        simp only [List.mem_cons, List.mem_append, List.mem_singleton] at hreach
        rcases hreach with h | h
        · rcases h with h1 | h1 | h1 | h2
          · simp at h1
          · simp at h1
          · simp at h1
          · exact absurd h2 (dialog_not_mem_build env _ sender _ _)
        · simp at h
      · by_cases hdlg : env.dialogResponse = DialogResponse.jsTrue
        · refine ⟨fun _ => ?_, fun hne => absurd hdlg hne⟩
          rcases hx : env.executeResult with e3 | out <;>
            simp [signAndExecuteTransactionHandler, validate, hg, hk, hbe, hdlg, hx]
        · refine ⟨fun heq => absurd heq hdlg, fun _ => ?_⟩
          refine ⟨?_, ?_, ?_⟩ <;>
            simp [signAndExecuteTransactionHandler, validate, hg, hk, hbe, hdlg,
              signed_not_mem_build, executed_not_mem_build]

/-- Claim C1: for every signPersonalMessage, signTransaction and
signAndExecuteTransaction request that reaches the confirmation dialog,
the handler signs (and, for signAndExecuteTransaction, broadcasts) only
when the dialog response is the strict boolean true; for every other
dialog response it throws UserRejectionError and produces no signature
and no broadcast. -/
theorem claim1_confirmation_gates_signing (env : Env) (origin method : String)
    (params : Json) (sec : List UiNode)
    (hm : method = mSignPersonalMessage ∨ method = mSignTransaction
      ∨ method = mSignAndExecuteTransaction)
    (hreach : Event.dialogShown DialogKind.confirmation sec
      ∈ (onRpcRequest env origin method params).events) :
    (env.dialogResponse = DialogResponse.jsTrue →
      Event.signed ∈ (onRpcRequest env origin method params).events) ∧
    (env.dialogResponse ≠ DialogResponse.jsTrue →
      (onRpcRequest env origin method params).result
          = .error SnapError.userRejection ∧
      Event.signed ∉ (onRpcRequest env origin method params).events ∧
      Event.executed ∉ (onRpcRequest env origin method params).events) := by
  rcases hm with rfl | rfl | rfl
  · rw [onRpc_spm] at hreach ⊢
    exact spmGate env params sec hreach
  · rw [onRpc_st] at hreach ⊢
    exact stGate env params sec hreach
  · rw [onRpc_sae] at hreach ⊢
    exact saeGate env params sec hreach

/-- Witness for C1 at a concrete rejected signPersonalMessage request. -/
theorem claim1_witness :
    (rejectEnv.dialogResponse = DialogResponse.jsTrue →
      Event.signed
        ∈ (onRpcRequest rejectEnv originSite mSignPersonalMessage
            sampleMsgParams).events) ∧
    (rejectEnv.dialogResponse ≠ DialogResponse.jsTrue →
      (onRpcRequest rejectEnv originSite mSignPersonalMessage
          sampleMsgParams).result = .error SnapError.userRejection ∧
      Event.signed
        ∉ (onRpcRequest rejectEnv originSite mSignPersonalMessage
            sampleMsgParams).events ∧
      Event.executed
        ∉ (onRpcRequest rejectEnv originSite mSignPersonalMessage
            sampleMsgParams).events) :=
  claim1_confirmation_gates_signing rejectEnv originSite mSignPersonalMessage
    sampleMsgParams [] (Or.inl rfl) (by decide)

/-! Persisted-state invariance of the non-admin-set handlers. -/

theorem spm_finalStored (env : Env) (params : Json) :
    (signPersonalMessageHandler env params).finalStored = env.stored := by
  rcases hb : bufferFromB64 (Json.getField params messageField) with e | u <;>
    rcases hk : env.keyDerivation with e2 | s <;>
    by_cases hdlg : env.dialogResponse = DialogResponse.jsTrue <;>
    simp [signPersonalMessageHandler, validate, hb, hk, hdlg]

theorem accounts_finalStored (env : Env) :
    (getAccountsHandler env).finalStored = env.stored := by
  rcases hk : env.keyDerivation with e | s <;>
    simp [getAccountsHandler, hk]

theorem st_finalStored (env : Env) (params : Json) :
    (signTransactionHandler env params).finalStored = env.stored := by
  rcases hk : env.keyDerivation with e | sender
  · simp [signTransactionHandler, validate, hk]
  · rcases ht : env.txFrom with e2 | u
    · simp [signTransactionHandler, validate, hk, ht]
    · by_cases hbe : (buildTransactionBlock env
          (Json.getField params chainField) sender).1.isError <;>
        by_cases hdlg : env.dialogResponse = DialogResponse.jsTrue <;>
        simp [signTransactionHandler, validate, hk, ht, hbe, hdlg]

theorem sae_finalStored (env : Env) (params : Json) :
    (signAndExecuteTransactionHandler env params).finalStored = env.stored := by
  rcases hg : getFullnodeUrlForChain env.stored (Json.getField params chainField)
      with e | url
  · simp [signAndExecuteTransactionHandler, validate, hg]
  · rcases hk : env.keyDerivation with e2 | sender
    · simp [signAndExecuteTransactionHandler, validate, hg, hk]
    · rcases hx : env.executeResult with e3 | out <;>
        by_cases hbe : (buildTransactionBlock env
            (Json.getField params chainField) sender).1.isError <;>
        by_cases hdlg : env.dialogResponse = DialogResponse.jsTrue <;>
        simp [signAndExecuteTransactionHandler, validate, hg, hk, hx, hbe, hdlg]

theorem adminGet_finalStored (env : Env) (origin : String) :
    (adminGetStoredStateHandler env origin).finalStored = env.stored := by
  by_cases ha : isAdminOrigin origin <;>
    simp [adminGetStoredStateHandler, ha]

/-- Claim C4: the persisted admin state is mutated only by
admin_setFullnodeUrl; admin_setFullnodeUrl first asserts the admin origin
and throws the Unauthorized error with the state untouched otherwise;
every other RPC method leaves the persisted state unchanged. -/
theorem claim4_state_mutated_only_by_admin_set (env : Env)
    (origin method : String) (params : Json) :
    (method ≠ mAdminSetFullnodeUrl →
      (onRpcRequest env origin method params).finalStored = env.stored) ∧
    (isAdminOrigin origin = false →
      (onRpcRequest env origin mAdminSetFullnodeUrl params).result
          = .error (.jsError unauthorizedMsg) ∧
      (onRpcRequest env origin mAdminSetFullnodeUrl params).finalStored
          = env.stored) := by
  constructor
  · intro hne
    by_cases h1 : method = mSignPersonalMessage
    · subst h1
      rw [onRpc_spm]
      exact spm_finalStored env params
    · by_cases h2 : method = mGetAccounts
      · subst h2
        rw [onRpc_accounts]
        exact accounts_finalStored env
      · by_cases h3 : method = mSignTransaction
        · subst h3
          rw [onRpc_st]
          exact st_finalStored env params
        · by_cases h4 : method = mSignAndExecuteTransaction
          · subst h4
            rw [onRpc_sae]
            exact sae_finalStored env params
          · by_cases h5 : method = mAdminGetStoredState
            · subst h5
              rw [onRpc_adminGet]
              exact adminGet_finalStored env origin
            · unfold onRpcRequest
              rw [if_neg h1, if_neg h2, if_neg h3, if_neg h4, if_neg h5,
                if_neg hne]
  · intro hfalse
    rw [onRpc_adminSet]
    simp [adminSetFullnodeUrlHandler, hfalse]

/-- Witness for C4: a getAccounts call and a non-admin
admin_setFullnodeUrl call, both leaving the state unchanged. -/
theorem claim4_witness :
    (onRpcRequest baseEnv originSite mGetAccounts goodAdminParams).finalStored
        = baseEnv.stored ∧
    ((onRpcRequest baseEnv originSite mAdminSetFullnodeUrl
        goodAdminParams).result = .error (.jsError unauthorizedMsg) ∧
      (onRpcRequest baseEnv originSite mAdminSetFullnodeUrl
          goodAdminParams).finalStored = baseEnv.stored) :=
  ⟨(claim4_state_mutated_only_by_admin_set baseEnv originSite mGetAccounts
      goodAdminParams).1 (by decide),
    (claim4_state_mutated_only_by_admin_set baseEnv originSite mGetAccounts
      goodAdminParams).2 (by decide)⟩

/-- Claim C2: every successful signTransaction run performs derive-key,
state read and endpoint resolution, build, dry run, confirmation dialog
and signing in exactly that order; every successful
signAndExecuteTransaction run additionally resolves the endpoint first
and ends by signing and broadcasting; in particular the dry run precedes
the confirmation dialog and signing follows it. -/
theorem claim2_pipeline_order (env : Env) (origin : String) (params : Json) :
    (∀ r, (onRpcRequest env origin mSignTransaction params).result = .ok r →
      ∃ sec, (onRpcRequest env origin mSignTransaction params).events
        = [Event.derivedKey, Event.stateRead, Event.resolvedUrl,
           Event.builtBytes, Event.dryRan,
           Event.dialogShown DialogKind.confirmation sec, Event.signed]) ∧
    (∀ r,
      (onRpcRequest env origin mSignAndExecuteTransaction params).result
        = .ok r →
      ∃ sec, (onRpcRequest env origin mSignAndExecuteTransaction params).events
        = [Event.stateRead, Event.resolvedUrl, Event.derivedKey,
           Event.stateRead, Event.resolvedUrl, Event.builtBytes, Event.dryRan,
           Event.dialogShown DialogKind.confirmation sec, Event.signed,
           Event.executed]) := by
  constructor
  · intro r hr
    rw [onRpc_st] at hr ⊢
    rcases hk : env.keyDerivation with e | sender
    · simp [signTransactionHandler, validate, hk] at hr
    · rcases ht : env.txFrom with e2 | u
      · simp [signTransactionHandler, validate, hk, ht] at hr
      · by_cases hbe : (buildTransactionBlock env
            (Json.getField params chainField) sender).1.isError
        · simp [signTransactionHandler, validate, hk, ht, hbe] at hr
        · obtain ⟨url, bytes, res, hg, hb, hd, hs⟩ :=
            buildTransactionBlock_not_isError env _ sender (by simpa using hbe)
          by_cases hdlg : env.dialogResponse = DialogResponse.jsTrue
          · refine ⟨genBalanceChangesSection
              (some (extractBalanceChanges sender res)), ?_⟩
            simp [signTransactionHandler, validate, hk, ht, hbe, hdlg,
              buildTransactionBlock_ok env _ sender url bytes res hg hb hd hs]
          · simp [signTransactionHandler, validate, hk, ht, hbe, hdlg] at hr
  · intro r hr
    rw [onRpc_sae] at hr ⊢
    rcases hg : getFullnodeUrlForChain env.stored (Json.getField params chainField)
        with e | url
    · simp [signAndExecuteTransactionHandler, validate, hg] at hr
    · rcases hk : env.keyDerivation with e2 | sender
      · simp [signAndExecuteTransactionHandler, validate, hg, hk] at hr
      · by_cases hbe : (buildTransactionBlock env
            (Json.getField params chainField) sender).1.isError
        · simp [signAndExecuteTransactionHandler, validate, hg, hk, hbe] at hr
        · obtain ⟨url2, bytes, res, hg2, hb, hd, hs⟩ :=
            buildTransactionBlock_not_isError env _ sender (by simpa using hbe)
          by_cases hdlg : env.dialogResponse = DialogResponse.jsTrue
          · rcases hx : env.executeResult with e3 | out
            · simp [signAndExecuteTransactionHandler, validate, hg, hk, hbe,
                hdlg, hx] at hr
            · refine ⟨genBalanceChangesSection
                (some (extractBalanceChanges sender res)), ?_⟩
              simp [signAndExecuteTransactionHandler, validate, hg, hk, hbe,
                hdlg, hx,
                buildTransactionBlock_ok env _ sender url2 bytes res hg2 hb hd hs]
          · simp [signAndExecuteTransactionHandler, validate, hg, hk, hbe,
              hdlg] at hr

/-- Witness for C2 at a concrete fully successful oracle. -/
theorem claim2_witness :
    (∃ sec, (onRpcRequest baseEnv originSite mSignTransaction
        sampleTxParams).events
      = [Event.derivedKey, Event.stateRead, Event.resolvedUrl,
         Event.builtBytes, Event.dryRan,
         Event.dialogShown DialogKind.confirmation sec, Event.signed]) ∧
    (∃ sec, (onRpcRequest baseEnv originSite mSignAndExecuteTransaction
        sampleTxParams).events
      = [Event.stateRead, Event.resolvedUrl, Event.derivedKey,
         Event.stateRead, Event.resolvedUrl, Event.builtBytes, Event.dryRan,
         Event.dialogShown DialogKind.confirmation sec, Event.signed,
         Event.executed]) :=
  ⟨(claim2_pipeline_order baseEnv originSite sampleTxParams).1
      (RpcResult.signedTransaction ("dHhieXRlcw==") ("sigB")) rfl,
    (claim2_pipeline_order baseEnv originSite sampleTxParams).2
      (RpcResult.executedOut ("digest1")) rfl⟩

/-- Claim C3: whenever building throws or the dry run does not report
status success (an error record from buildTransactionBlock), both
transaction handlers show an alert dialog as their final event and throw
DryRunFailedError carrying the error message of the build record, with no
signing and no broadcast.  For signAndExecuteTransaction the endpoint
resolution that precedes the build must succeed for the build to be
reached (the unsupported-chain short circuit is covered by C10). -/
theorem claim3_dry_run_failure_alert (env : Env) (origin : String)
    (params : Json) (sender : String)
    (hk : env.keyDerivation = .ok sender) :
    (env.txFrom = .ok () →
      (buildTransactionBlock env (Json.getField params chainField)
        sender).1.isError = true →
      (onRpcRequest env origin mSignTransaction params).result
        = .error (.dryRunFailed (buildTransactionBlock env
            (Json.getField params chainField) sender).1.errorMessage) ∧
      (onRpcRequest env origin mSignTransaction params).events
        = Event.derivedKey
            :: (buildTransactionBlock env (Json.getField params chainField)
                sender).2
            ++ [Event.dialogShown DialogKind.alert
                (genBalanceChangesSection (buildTransactionBlock env
                  (Json.getField params chainField) sender).1.balanceChanges)] ∧
      Event.signed ∉ (onRpcRequest env origin mSignTransaction params).events ∧
      Event.executed
        ∉ (onRpcRequest env origin mSignTransaction params).events) ∧
    (∀ url,
      getFullnodeUrlForChain env.stored (Json.getField params chainField)
        = .ok url →
      (buildTransactionBlock env (Json.getField params chainField)
        sender).1.isError = true →
      (onRpcRequest env origin mSignAndExecuteTransaction params).result
        = .error (.dryRunFailed (buildTransactionBlock env
            (Json.getField params chainField) sender).1.errorMessage) ∧
      (onRpcRequest env origin mSignAndExecuteTransaction params).events
        = Event.stateRead :: Event.resolvedUrl :: Event.derivedKey
            :: (buildTransactionBlock env (Json.getField params chainField)
                sender).2
            ++ [Event.dialogShown DialogKind.alert
                (genBalanceChangesSection (buildTransactionBlock env
                  (Json.getField params chainField) sender).1.balanceChanges)] ∧
      Event.signed
        ∉ (onRpcRequest env origin mSignAndExecuteTransaction params).events ∧
      Event.executed
        ∉ (onRpcRequest env origin mSignAndExecuteTransaction params).events) := by
  constructor
  · intro ht hbe
    rw [onRpc_st]
    refine ⟨?_, ?_, ?_, ?_⟩ <;>
      simp [signTransactionHandler, validate, hk, ht, hbe,
        signed_not_mem_build, executed_not_mem_build]
  · intro url hg hbe
    rw [onRpc_sae]
    refine ⟨?_, ?_, ?_, ?_⟩ <;>
      simp [signAndExecuteTransactionHandler, validate, hk, hg, hbe,
        signed_not_mem_build, executed_not_mem_build]

/-- Witness for C3 at a concrete failing dry run. -/
theorem claim3_witness :
    (onRpcRequest failEnv originSite mSignTransaction sampleTxParams).result
      = .error (.dryRunFailed (buildTransactionBlock failEnv
          (Json.getField sampleTxParams chainField) sampleSender).1.errorMessage)
      ∧
    (onRpcRequest failEnv originSite mSignTransaction sampleTxParams).events
      = Event.derivedKey
          :: (buildTransactionBlock failEnv
              (Json.getField sampleTxParams chainField) sampleSender).2
          ++ [Event.dialogShown DialogKind.alert
              (genBalanceChangesSection (buildTransactionBlock failEnv
                (Json.getField sampleTxParams chainField)
                sampleSender).1.balanceChanges)] ∧
    Event.signed
      ∉ (onRpcRequest failEnv originSite mSignTransaction sampleTxParams).events
      ∧
    Event.executed
      ∉ (onRpcRequest failEnv originSite mSignTransaction
          sampleTxParams).events :=
  (claim3_dry_run_failure_alert failEnv originSite sampleTxParams sampleSender
    rfl).1 rfl (by decide)

theorem getFullnodeUrlForChain_unsupported (stored : Option SnapState)
    (chain : Json)
    (h1 : chain.strEq chainMainnet = false)
    (h2 : chain.strEq chainTestnet = false)
    (h3 : chain.strEq chainDevnet = false)
    (h4 : chain.strEq chainLocalnet = false) :
    getFullnodeUrlForChain stored chain
      = .error (unsupportedChainPrefix ++ jsDisplay chain) := by
  simp [getFullnodeUrlForChain, h1, h2, h3, h4]

/-- Claim C10: on a chain outside the four supported identifiers,
signTransaction reaches buildTransactionBlock, whose try/catch converts
the Unsupported-chain throw into an error record, so the handler shows
the alert dialog and throws DryRunFailedError carrying that message;
signAndExecuteTransaction instead throws the raw Unsupported-chain error
from its own getFullnodeUrlForChain call, after only the state read and
before any key derivation, build, dry run or dialog. -/
theorem claim10_unsupported_chain (env : Env) (origin : String) (params : Json)
    (sender : String)
    (hk : env.keyDerivation = .ok sender) (ht : env.txFrom = .ok ())
    (h1 : (Json.getField params chainField).strEq chainMainnet = false)
    (h2 : (Json.getField params chainField).strEq chainTestnet = false)
    (h3 : (Json.getField params chainField).strEq chainDevnet = false)
    (h4 : (Json.getField params chainField).strEq chainLocalnet = false) :
    ((onRpcRequest env origin mSignTransaction params).result
        = .error (.dryRunFailed (some (unsupportedChainPrefix
            ++ jsDisplay (Json.getField params chainField)))) ∧
      (onRpcRequest env origin mSignTransaction params).events
        = [Event.derivedKey, Event.stateRead,
           Event.dialogShown DialogKind.alert []]) ∧
    ((onRpcRequest env origin mSignAndExecuteTransaction params).result
        = .error (.jsError (unsupportedChainPrefix
            ++ jsDisplay (Json.getField params chainField))) ∧
      (onRpcRequest env origin mSignAndExecuteTransaction params).events
        = [Event.stateRead]) := by
  have hgerr := getFullnodeUrlForChain_unsupported env.stored
    (Json.getField params chainField) h1 h2 h3 h4
  constructor
  · rw [onRpc_st]
    constructor <;>
      simp [signTransactionHandler, validate, hk, ht,
        buildTransactionBlock_catch env _ sender _ hgerr, catchResult,
        genBalanceChangesSection]
  · rw [onRpc_sae]
    constructor <;>
      simp [signAndExecuteTransactionHandler, validate, hgerr]

/-- Witness for C10 at a concrete unsupported chain. -/
theorem claim10_witness :
    ((onRpcRequest baseEnv originSite mSignTransaction badChainParams).result
        = .error (.dryRunFailed (some (unsupportedChainPrefix
            ++ jsDisplay (Json.getField badChainParams chainField)))) ∧
      (onRpcRequest baseEnv originSite mSignTransaction badChainParams).events
        = [Event.derivedKey, Event.stateRead,
           Event.dialogShown DialogKind.alert []]) ∧
    ((onRpcRequest baseEnv originSite mSignAndExecuteTransaction
        badChainParams).result
        = .error (.jsError (unsupportedChainPrefix
            ++ jsDisplay (Json.getField badChainParams chainField))) ∧
      (onRpcRequest baseEnv originSite mSignAndExecuteTransaction
          badChainParams).events
        = [Event.stateRead]) :=
  claim10_unsupported_chain baseEnv originSite badChainParams sampleSender
    rfl rfl (by decide) (by decide) (by decide) (by decide)

/-- Claim C5 (code bug): the schema validators in `src/types.ts` are
identity casts (explicitly marked as mocks to be replaced), so validate
accepts every parameter value, no handler ever throws InvalidParamsError,
and a non-conforming admin_setFullnodeUrl call (network selector outside
the schema enumeration) is accepted and still reaches the state write
instead of failing before it. -/
theorem claim5_mock_validation_never_rejects :
    (∀ p : Json, validate p = .ok p) ∧
    (onRpcRequest baseEnv adminOrigin1 mAdminSetFullnodeUrl
        bogusAdminParams).result = .ok RpcResult.unitResult ∧
    (onRpcRequest baseEnv adminOrigin1 mAdminSetFullnodeUrl
        bogusAdminParams).events = [Event.stateRead, Event.stateWritten] :=
  ⟨fun _ => rfl, rfl, rfl⟩

/-- Claim C6: getFullnodeUrlForChain reads the persisted state and, for
each of the four supported chain identifiers, returns the stored override
when one is set and the built-in default otherwise; every other chain
identifier produces the Unsupported-chain error; and every
buildTransactionBlock call resolves its endpoint this way, reading the
state first. -/
theorem claim6_endpoint_resolution (env : Env) :
    (((getStoredState env.stored).mainnetUrl.isNullish = false →
      getFullnodeUrlForChain env.stored (Json.str chainMainnet)
        = .ok (getStoredState env.stored).mainnetUrl) ∧
     ((getStoredState env.stored).mainnetUrl.isNullish = true →
      getFullnodeUrlForChain env.stored (Json.str chainMainnet)
        = .ok defaultMainnetUrl)) ∧
    (((getStoredState env.stored).testnetUrl.isNullish = false →
      getFullnodeUrlForChain env.stored (Json.str chainTestnet)
        = .ok (getStoredState env.stored).testnetUrl) ∧
     ((getStoredState env.stored).testnetUrl.isNullish = true →
      getFullnodeUrlForChain env.stored (Json.str chainTestnet)
        = .ok defaultTestnetUrl)) ∧
    (((getStoredState env.stored).devnetUrl.isNullish = false →
      getFullnodeUrlForChain env.stored (Json.str chainDevnet)
        = .ok (getStoredState env.stored).devnetUrl) ∧
     ((getStoredState env.stored).devnetUrl.isNullish = true →
      getFullnodeUrlForChain env.stored (Json.str chainDevnet)
        = .ok defaultDevnetUrl)) ∧
    (((getStoredState env.stored).localnetUrl.isNullish = false →
      getFullnodeUrlForChain env.stored (Json.str chainLocalnet)
        = .ok (getStoredState env.stored).localnetUrl) ∧
     ((getStoredState env.stored).localnetUrl.isNullish = true →
      getFullnodeUrlForChain env.stored (Json.str chainLocalnet)
        = .ok defaultLocalnetUrl)) ∧
    (∀ c : String, c ≠ chainMainnet → c ≠ chainTestnet → c ≠ chainDevnet →
      c ≠ chainLocalnet →
      getFullnodeUrlForChain env.stored (Json.str c)
        = .error (unsupportedChainPrefix ++ c)) ∧
    (∀ chain sender,
      Event.stateRead ∈ (buildTransactionBlock env chain sender).2) ∧
    (∀ chain sender e,
      getFullnodeUrlForChain env.stored chain = .error e →
      buildTransactionBlock env chain sender
        = (catchResult e, [Event.stateRead])) := by
  have dMM : (Json.str chainMainnet).strEq chainMainnet = true := by decide
  have dTM : (Json.str chainTestnet).strEq chainMainnet = false := by decide
  have dTT : (Json.str chainTestnet).strEq chainTestnet = true := by decide
  have dDM : (Json.str chainDevnet).strEq chainMainnet = false := by decide
  have dDT : (Json.str chainDevnet).strEq chainTestnet = false := by decide
  have dDD : (Json.str chainDevnet).strEq chainDevnet = true := by decide
  have dLM : (Json.str chainLocalnet).strEq chainMainnet = false := by decide
  have dLT : (Json.str chainLocalnet).strEq chainTestnet = false := by decide
  have dLD : (Json.str chainLocalnet).strEq chainDevnet = false := by decide
  have dLL : (Json.str chainLocalnet).strEq chainLocalnet = true := by decide
  refine ⟨⟨?_, ?_⟩, ⟨?_, ?_⟩, ⟨?_, ?_⟩, ⟨?_, ?_⟩, ?_, ?_, ?_⟩
  · intro h
    simp [getFullnodeUrlForChain, dMM, Json.coalesce, h]
  · intro h
    simp [getFullnodeUrlForChain, dMM, Json.coalesce, h]
  · intro h
    simp [getFullnodeUrlForChain, dTM, dTT, Json.coalesce, h]
  · intro h
    simp [getFullnodeUrlForChain, dTM, dTT, Json.coalesce, h]
  · intro h
    simp [getFullnodeUrlForChain, dDM, dDT, dDD, Json.coalesce, h]
  · intro h
    simp [getFullnodeUrlForChain, dDM, dDT, dDD, Json.coalesce, h]
  · intro h
    simp [getFullnodeUrlForChain, dLM, dLT, dLD, dLL, Json.coalesce, h]
  · intro h
    simp [getFullnodeUrlForChain, dLM, dLT, dLD, dLL, Json.coalesce, h]
  · intro c hc1 hc2 hc3 hc4
    simp [getFullnodeUrlForChain, Json.strEq, hc1, hc2, hc3, hc4, jsDisplay]
  · intro chain sender
    rcases hg : getFullnodeUrlForChain env.stored chain with e | url
    · rw [buildTransactionBlock_catch env chain sender e hg]
      simp
    · unfold buildTransactionBlock
      rw [hg]
      rcases hb : env.buildBytes with e | bytes
      · simp
      · rcases hd : env.dryRun with e | res
        · simp
        · by_cases hs : dryRunSuccess res <;> simp [hs]
  · intro chain sender e hg
    exact buildTransactionBlock_catch env chain sender e hg

/-- Witness for C6: override set for mainnet, default for testnet, an
unsupported chain, and the state read of a concrete build. -/
theorem claim6_witness :
    (getFullnodeUrlForChain overrideEnv.stored (Json.str chainMainnet)
      = .ok (getStoredState overrideEnv.stored).mainnetUrl) ∧
    (getFullnodeUrlForChain overrideEnv.stored (Json.str chainTestnet)
      = .ok defaultTestnetUrl) ∧
    (getFullnodeUrlForChain overrideEnv.stored (Json.str ("solana:mainnet"))
      = .error (unsupportedChainPrefix ++ "solana:mainnet")) ∧
    Event.stateRead
      ∈ (buildTransactionBlock overrideEnv (Json.str chainMainnet)
          sampleSender).2 :=
  ⟨((claim6_endpoint_resolution overrideEnv).1).1 rfl,
    ((claim6_endpoint_resolution overrideEnv).2.1).2 rfl,
    (claim6_endpoint_resolution overrideEnv).2.2.2.2.1 ("solana:mainnet")
      (by decide) (by decide) (by decide) (by decide),
    (claim6_endpoint_resolution overrideEnv).2.2.2.2.2.1
      (Json.str chainMainnet) sampleSender⟩

theorem strEq_true_iff (j : Json) (a : String) :
    j.strEq a = true ↔ j = Json.str a := by
  cases j <;> simp [Json.strEq]

/-- Claim C7: an admin-origin admin_setFullnodeUrl call with network N in
the four-element enumeration stores a state whose URL field for N is the
url parameter while the other three fields are those of the state read at
the start of the call; any other network value persists the read state
with all four fields unchanged. -/
theorem claim7_admin_set_frame (env : Env) (origin : String) (params : Json)
    (hadmin : isAdminOrigin origin = true) :
    ((Json.getField params networkField).strEq netMainnet = true →
      (onRpcRequest env origin mAdminSetFullnodeUrl params).finalStored
        = some { getStoredState env.stored with
            mainnetUrl := Json.getField params urlField }) ∧
    ((Json.getField params networkField).strEq netTestnet = true →
      (onRpcRequest env origin mAdminSetFullnodeUrl params).finalStored
        = some { getStoredState env.stored with
            testnetUrl := Json.getField params urlField }) ∧
    ((Json.getField params networkField).strEq netDevnet = true →
      (onRpcRequest env origin mAdminSetFullnodeUrl params).finalStored
        = some { getStoredState env.stored with
            devnetUrl := Json.getField params urlField }) ∧
    ((Json.getField params networkField).strEq netLocalnet = true →
      (onRpcRequest env origin mAdminSetFullnodeUrl params).finalStored
        = some { getStoredState env.stored with
            localnetUrl := Json.getField params urlField }) ∧
    ((Json.getField params networkField).strEq netMainnet = false →
      (Json.getField params networkField).strEq netTestnet = false →
      (Json.getField params networkField).strEq netDevnet = false →
      (Json.getField params networkField).strEq netLocalnet = false →
      (onRpcRequest env origin mAdminSetFullnodeUrl params).finalStored
        = some (getStoredState env.stored)) := by
  rw [onRpc_adminSet]
  refine ⟨?_, ?_, ?_, ?_, ?_⟩
  · intro h
    rw [strEq_true_iff] at h
    have e1 : (Json.str netMainnet).strEq netMainnet = true := by decide
    simp [adminSetFullnodeUrlHandler, validate, hadmin, h, e1]
  · intro h
    rw [strEq_true_iff] at h
    have e1 : (Json.str netTestnet).strEq netMainnet = false := by decide
    have e2 : (Json.str netTestnet).strEq netTestnet = true := by decide
    simp [adminSetFullnodeUrlHandler, validate, hadmin, h, e1, e2]
  · intro h
    rw [strEq_true_iff] at h
    have e1 : (Json.str netDevnet).strEq netMainnet = false := by decide
    have e2 : (Json.str netDevnet).strEq netTestnet = false := by decide
    have e3 : (Json.str netDevnet).strEq netDevnet = true := by decide
    simp [adminSetFullnodeUrlHandler, validate, hadmin, h, e1, e2, e3]
  · intro h
    rw [strEq_true_iff] at h
    have e1 : (Json.str netLocalnet).strEq netMainnet = false := by decide
    have e2 : (Json.str netLocalnet).strEq netTestnet = false := by decide
    have e3 : (Json.str netLocalnet).strEq netDevnet = false := by decide
    have e4 : (Json.str netLocalnet).strEq netLocalnet = true := by decide
    simp [adminSetFullnodeUrlHandler, validate, hadmin, h, e1, e2, e3, e4]
  · intro h1 h2 h3 h4
    simp [adminSetFullnodeUrlHandler, validate, hadmin, h1, h2, h3, h4]

/-- Witness for C7: a conforming testnet update from the admin origin. -/
theorem claim7_witness :
    (onRpcRequest baseEnv adminOrigin1 mAdminSetFullnodeUrl
        goodAdminParams).finalStored
      = some { getStoredState baseEnv.stored with
          testnetUrl := Json.getField goodAdminParams urlField } :=
  (claim7_admin_set_frame baseEnv adminOrigin1 goodAdminParams rfl).2.1
    (by decide)

/-- Claim C8 as amended: after a successful dry run, the signTransaction
confirmation dialog carries the balance section built from exactly those
dry-run balance changes whose owner equals the template string made of
`0x` followed by the sender address (not the sender address itself), each
rendered with the decimal string of its amount over `1e9` and the last
`::`-separated segment of its coin type; when no change passes the filter
the section is empty. -/
theorem claim8_balance_section_amended (env : Env) (origin : String)
    (params : Json) (sender : String) (url : Json) (bytes : List Nat)
    (res : DryRunResponse) (changes : List RawBalanceChange)
    (hk : env.keyDerivation = .ok sender) (ht : env.txFrom = .ok ())
    (hg : getFullnodeUrlForChain env.stored (Json.getField params chainField)
      = .ok url)
    (hb : env.buildBytes = .ok bytes) (hd : env.dryRun = .ok res)
    (hs : dryRunSuccess res = true) (hbc : res.balanceChanges = some changes) :
    ∀ filtered,
      filtered = changes.filter (fun c => c.owner == hexPrefix ++ sender) →
      (filtered = [] →
        Event.dialogShown DialogKind.confirmation []
          ∈ (onRpcRequest env origin mSignTransaction params).events) ∧
      (filtered ≠ [] →
        Event.dialogShown DialogKind.confirmation
          (UiNode.divider :: UiNode.text balanceHeader ::
            filtered.map (fun c => UiNode.text
              (decString9 c.amount ++ spaceStr ++ lastSegment c.coinType)))
          ∈ (onRpcRequest env origin mSignTransaction params).events) := by
  intro filtered hfil
  have hbuild := buildTransactionBlock_ok env (Json.getField params chainField)
    sender url bytes res hg hb hd hs
  have hex : extractBalanceChanges sender res
      = filtered.map (fun c =>
          (⟨lastSegment c.coinType, decString9 c.amount⟩ : BalanceChange)) := by
    rw [extractBalanceChanges, hbc, hfil]
  have hmem : Event.dialogShown DialogKind.confirmation
      (genBalanceChangesSection (some (extractBalanceChanges sender res)))
      ∈ (onRpcRequest env origin mSignTransaction params).events := by
    rw [onRpc_st]
    by_cases hdlg : env.dialogResponse = DialogResponse.jsTrue <;>
      simp [signTransactionHandler, validate, hk, ht, hbuild, hdlg]
  constructor
  · intro hnil
    have hsec : genBalanceChangesSection
        (some (extractBalanceChanges sender res)) = [] := by
      rw [hex, hnil]
      simp [genBalanceChangesSection]
    exact hsec ▸ hmem
  · intro hne
    obtain ⟨c0, cs, hcc⟩ := List.exists_cons_of_ne_nil hne
    have hsec : genBalanceChangesSection
        (some (extractBalanceChanges sender res))
        = UiNode.divider :: UiNode.text balanceHeader ::
            filtered.map (fun c => UiNode.text
              (decString9 c.amount ++ spaceStr ++ lastSegment c.coinType)) := by
      rw [hex, hcc]
      simp [genBalanceChangesSection, List.map_map]
    exact hsec ▸ hmem

/-- Counterexample for C8 as frozen: the dry run reports one balance
change owned exactly by the sender address, yet the confirmation dialog
shows an empty balance section, because the code filters on `0x`
prepended to the already 0x-prefixed sender. -/
theorem claim8_counterexample :
    sampleChange.owner = sampleSender ∧
    okDryRun.balanceChanges = some [sampleChange] ∧
    baseEnv.keyDerivation = Except.ok sampleSender ∧
    baseEnv.dryRun = Except.ok okDryRun ∧
    (onRpcRequest baseEnv originSite mSignTransaction sampleTxParams).events
      = [Event.derivedKey, Event.stateRead, Event.resolvedUrl,
         Event.builtBytes, Event.dryRan,
         Event.dialogShown DialogKind.confirmation [], Event.signed] :=
  ⟨rfl, rfl, rfl, rfl, rfl⟩

/-- Witness for C8 as amended: a change whose owner carries the doubled
prefix does appear, rendered, in the confirmation dialog section. -/
theorem claim8_witness :
    Event.dialogShown DialogKind.confirmation
      (UiNode.divider :: UiNode.text balanceHeader ::
        [matchedChange].map (fun c => UiNode.text
          (decString9 c.amount ++ spaceStr ++ lastSegment c.coinType)))
      ∈ (onRpcRequest matchedEnv originSite mSignTransaction
          sampleTxParams).events :=
  (claim8_balance_section_amended matchedEnv originSite sampleTxParams
      sampleSender (defaultMainnetUrl) [1, 2, 3] matchedDryRun [matchedChange]
      rfl rfl rfl rfl rfl rfl rfl [matchedChange] (by decide)).2
    (by decide)

/-- Claim C9: calcTotalGasFeesDec returns a string denoting exactly
`(computationCost + storageCost - storageRebate) / 1e9` computed with
exact decimal arithmetic on the gasUsed fields, and returns the string 0
whenever the response has no `effects.gasUsed`. -/
theorem claim9_gas_fee_exact (res : DryRunResponse) :
    (effGasUsed res = none → calcTotalGasFeesDec res = zeroString) ∧
    (∀ g, effGasUsed res = some g →
      decStrVal (calcTotalGasFeesDec res)
        = ((g.computationCost : ℚ) + (g.storageCost : ℚ)
            - (g.storageRebate : ℚ)) / 1000000000) := by
  constructor
  · intro h
    simp only [calcTotalGasFeesDec, h]
  · intro g hg
    simp only [calcTotalGasFeesDec, hg]
    rw [decStrVal_decString9]
    push_cast
    ring

/-- Witness for C9: a response without gas information and the sample gas
usage `1000000 + 2000000 - 500000`. -/
theorem claim9_witness :
    calcTotalGasFeesDec (⟨none, none⟩ : DryRunResponse) = zeroString ∧
    decStrVal (calcTotalGasFeesDec okDryRun)
      = ((okGas.computationCost : ℚ) + (okGas.storageCost : ℚ)
          - (okGas.storageRebate : ℚ)) / 1000000000 :=
  ⟨(claim9_gas_fee_exact ⟨none, none⟩).1 rfl,
    (claim9_gas_fee_exact okDryRun).2 okGas rfl⟩

end IotaSnap
